import Mathlib

/-!
Shallow embedding of the darkalley repository's two stateful blocks:
the image-carousel slide engine (src/blocks/image-carousel/image-carousel.js)
and the video-hero deferred embed loader (src/unnamed/part_002).
Definitions are translated from the JavaScript source; theorems settle the
frozen specification claims about them.
-/

namespace DarkAlley

/-! ## Character and string utilities (JS semantics helpers) -/

/-- Membership of a character in the JavaScript regular-expression class
JS-backslash-s (whitespace): space, tab, LF, VT, FF, CR, NBSP, BOM and the
Unicode space separators. -/
def jsWhitespace (c : Char) : Bool :=
  c = ' ' || c = '\t' || c = '\n' || c = '\x0b' || c = '\x0c' || c = '\r' ||
  c.toNat = 0xa0 || c.toNat = 0xfeff || c.toNat = 0x1680 ||
  (0x2000 ≤ c.toNat && c.toNat ≤ 0x200a) ||
  c.toNat = 0x2028 || c.toNat = 0x2029 || c.toNat = 0x202f ||
  c.toNat = 0x205f || c.toNat = 0x3000

/-- Characters allowed inside a captured YouTube video id: the source regex
class excludes double quote, ampersand, question mark, forward slash and
JS whitespace (image-carousel.js line 10). -/
def isIdChar (c : Char) : Bool :=
  !(c = '"' || c = '&' || c = '?' || c = '/' || jsWhitespace c)

/-- Characters matched by the JS regex dot (anything but line terminators). -/
def dotOK (c : Char) : Bool :=
  !(c = '\n' || c = '\r' || c.toNat = 0x2028 || c.toNat = 0x2029)

/-- Match a literal character sequence at the front of a list, returning the
remainder on success. -/
def stripLit : List Char → List Char → Option (List Char)
  | [], l => some l
  | _ :: _, [] => none
  | p :: ps, c :: cs => if p = c then stripLit ps cs else none

/-- Test whether the pattern occurs at the front of the list. -/
def hasPrefixL (pat : List Char) (l : List Char) : Bool :=
  (stripLit pat l).isSome

/-- JS String.prototype.includes: substring occurrence test. -/
def containsSubL (pat : List Char) : List Char → Bool
  | [] => hasPrefixL pat []
  | c :: cs => hasPrefixL pat (c :: cs) || containsSubL pat cs

/-- JS String.prototype.includes on Lean strings. -/
def containsSub (s pat : String) : Bool :=
  containsSubL pat.data s.data

/-- Split a character list on a separator character, like JS String.split
with a single-character separator. -/
def splitOnCharL (sep : Char) : List Char → List (List Char)
  | [] => [[]]
  | c :: cs =>
    if c = sep then [] :: splitOnCharL sep cs
    else
      match splitOnCharL sep cs with
      | [] => [[c]]
      | h :: t => (c :: h) :: t

/-- Last segment of a slash-separated character list: the value of
JS split(slash).pop(), written with an accumulator. -/
def lastSegAux : List Char → List Char → List Char
  | [], acc => acc.reverse
  | c :: cs, acc => if c = '/' then lastSegAux cs [] else lastSegAux cs (c :: acc)

/-- JS pathname.split(slash).pop() on Lean strings. -/
def lastSeg (s : String) : String :=
  String.mk (lastSegAux s.data [])

/-! ## The YouTube id regular expression of image-carousel.js

The source regex (lines 10 and 34) is
(?:youtu.be/|youtube.com(?:/embed/|/v/|/watch?v=|/watch?.+ampv=))
followed by an 11-character capture of id characters, where dots, question
marks and the ampersand are escaped literals in the original.  The matcher
below mirrors JS regex search semantics: scan positions left to right, try
alternatives in order, and let a greedy dot-plus backtrack from the right. -/

/-- Capture of the regex tail: exactly 11 id characters must follow. -/
def tryCapture (l : List Char) : Option (List Char) :=
  let t := l.take 11
  if t.length = 11 && t.all isIdChar then some t else none

/-- Greedy matching of dot-plus followed by the literal amp-v-equals and the
11-character capture; the argument j ranges over candidate lengths of the
dot-plus part, longest first, as a backtracking JS engine would. -/
def tryAmpV : Nat → List Char → Option (List Char)
  | 0, _ => none
  | j + 1, l =>
    if (l.take (j + 1)).all dotOK then
      match stripLit [Char.ofNat 38, 'v', '='] (l.drop (j + 1)) with
      | some rest =>
        match tryCapture rest with
        | some cap => some cap
        | none => tryAmpV j l
      | none => tryAmpV j l
    else tryAmpV j l

/-- Fourth inner alternative: /watch? followed by dot-plus amp-v-equals. -/
def tryWatchQ (r : List Char) : Option (List Char) :=
  match stripLit ("/watch?").data r with
  | some r2 => tryAmpV r2.length r2
  | none => none

/-- Third inner alternative: /watch?v= then the capture, else backtrack. -/
def tryWatchV (r : List Char) : Option (List Char) :=
  match stripLit ("/watch?v=").data r with
  | some r2 =>
    match tryCapture r2 with
    | some cap => some cap
    | none => tryWatchQ r
  | none => tryWatchQ r

/-- Second inner alternative: /v/ then the capture, else backtrack. -/
def tryVPath (r : List Char) : Option (List Char) :=
  match stripLit ("/v/").data r with
  | some r2 =>
    match tryCapture r2 with
    | some cap => some cap
    | none => tryWatchV r
  | none => tryWatchV r

/-- First inner alternative after the youtube.com literal: /embed/. -/
def tryEmbedPath (r : List Char) : Option (List Char) :=
  match stripLit ("/embed/").data r with
  | some r2 =>
    match tryCapture r2 with
    | some cap => some cap
    | none => tryVPath r
  | none => tryVPath r

/-- Outer second alternative: the youtube.com literal then the inner group. -/
def tryYoutubeCom (l : List Char) : Option (List Char) :=
  match stripLit ("youtube.com").data l with
  | some r => tryEmbedPath r
  | none => none

/-- Attempt a match anchored at the current position: youtu.be/ then the
capture, backtracking into the youtube.com alternative on failure. -/
def tryAt (l : List Char) : Option (List Char) :=
  match stripLit ("youtu.be/").data l with
  | some r =>
    match tryCapture r with
    | some cap => some cap
    | none => tryYoutubeCom l
  | none => tryYoutubeCom l

/-- Unanchored regex search: first position (leftmost) whose anchored
attempt succeeds, as in JS String.prototype.match. -/
def matchScan : List Char → Option (List Char)
  | [] => none
  | c :: cs =>
    match tryAt (c :: cs) with
    | some cap => some cap
    | none => matchScan cs

/-- Model of the id extraction expression url.match(regex) index 1 used by
createYouTubeEmbed and createYouTubePreview. -/
def matchYouTubeId (url : String) : Option String :=
  (matchScan url.data).map String.mk

/-! ## WHATWG URL model

The source calls new URL on absolute http(s) URLs and reads origin,
pathname and search.  The model below covers exactly that shape
(scheme, host, path, query; no credentials or ports appear in this
repository), including the WHATWG normalisation of backslash to slash in
paths of special schemes and the truncation of the path at the query or
fragment delimiter. -/

/-- Does a character terminate the authority (host) component? -/
def authorityEnd (c : Char) : Bool :=
  c = '/' || c = '\\' || c = '?' || c = '#'

/-- Collect path characters up to the query or fragment delimiter,
normalising backslash to slash as WHATWG does for special schemes. -/
def takePath : List Char → List Char
  | [] => []
  | c :: cs =>
    if c = '?' || c = '#' then []
    else (if c = '\\' then '/' else c) :: takePath cs

/-- Collect query characters up to the fragment delimiter. -/
def takeQuery : List Char → List Char
  | [] => []
  | c :: cs => if c = '#' then [] else c :: takeQuery cs

/-- Parsed absolute URL: the components the source reads. -/
structure ParsedURL where
  scheme : String
  host : String
  pathname : String
  search : String
deriving DecidableEq

/-- JS url.origin for the URLs in this repository. -/
def ParsedURL.origin (u : ParsedURL) : String :=
  u.scheme ++ ("://") ++ u.host

/-- Model of new URL(s) for absolute http(s) URLs; none models the
TypeError thrown on other inputs. -/
def parseURL (s : String) : Option ParsedURL :=
  let parseRest (scheme : String) (rest : List Char) : ParsedURL :=
    let host := rest.takeWhile (fun c => !authorityEnd c)
    let tail := rest.dropWhile (fun c => !authorityEnd c)
    let path :=
      match tail with
      | '/' :: _ => takePath tail
      | '\\' :: _ => takePath tail
      | _ => ['/']
    let qtail := tail.dropWhile (fun c => !(c = '?' || c = '#'))
    let query :=
      match qtail with
      | '?' :: qs => takeQuery qs
      | _ => []
    { scheme := scheme
      host := String.mk (host.map Char.toLower)
      pathname := String.mk path
      search := if query = [] then ("") else String.mk ('?' :: query) }
  match stripLit ("https://").data s.data with
  | some rest => some (parseRest ("https") rest)
  | none =>
    match stripLit ("http://").data s.data with
    | some rest => some (parseRest ("http") rest)
    | none => none

/-- JS new URL(s).pathname, with the empty string standing in for the
exception on non-absolute input (unreachable for the strings the carousel
feeds it, which always start with the https scheme). -/
def urlPathname (s : String) : String :=
  match parseURL s with
  | some u => u.pathname
  | none => ("")

/-! ## URLSearchParams and encodeURIComponent models -/

/-- Hexadecimal digit value. -/
def hexVal (c : Char) : Option Nat :=
  if '0' ≤ c && c ≤ '9' then some (c.toNat - 48)
  else if 'A' ≤ c && c ≤ 'F' then some (c.toNat - 55)
  else if 'a' ≤ c && c ≤ 'f' then some (c.toNat - 87)
  else none

/-- Percent-decoding as URLSearchParams applies it to keys and values,
with plus decoded to space; multi-byte UTF-8 sequences are decoded
bytewise, which agrees with the browser on the ASCII inputs this
repository produces. -/
def percentDecode : List Char → List Char
  | '%' :: a :: b :: rest =>
    match hexVal a, hexVal b with
    | some x, some y => Char.ofNat (16 * x + y) :: percentDecode rest
    | _, _ => '%' :: percentDecode (a :: b :: rest)
  | c :: rest => (if c = '+' then ' ' else c) :: percentDecode rest
  | [] => []

/-- Split a pair at the first equals sign, as URLSearchParams does. -/
def splitPair : List Char → List Char × List Char
  | [] => ([], [])
  | '=' :: rest => ([], rest)
  | c :: rest =>
    let kv := splitPair rest
    (c :: kv.1, kv.2)

/-- Model of new URLSearchParams(search).get(key): leading question mark
stripped, empty segments skipped, first matching key wins. -/
def searchParamGet (search : String) (key : String) : Option String :=
  let raw := match search.data with
    | '?' :: rest => rest
    | l => l
  let segs := (splitOnCharL '&' raw).filter (fun seg => seg ≠ [])
  let hit := segs.find? (fun seg => percentDecode (splitPair seg).1 = key.data)
  hit.map (fun seg => String.mk (percentDecode (splitPair seg).2))

/-- Unreserved characters of encodeURIComponent. -/
def encUnreserved (c : Char) : Bool :=
  c.isAlpha || c.isDigit || c = '-' || c = '_' || c = '.' || c = '!' ||
  c = '~' || c = '*' || c = Char.ofNat 39 || c = '(' || c = ')'

/-- Upper-case hexadecimal digit. -/
def hexDigit (n : Nat) : Char :=
  if n < 10 then Char.ofNat (48 + n) else Char.ofNat (55 + n)

/-- UTF-8 bytes of a character. -/
def utf8Bytes (c : Char) : List Nat :=
  let n := c.toNat
  if n < 0x80 then [n]
  else if n < 0x800 then [0xc0 + n / 0x40, 0x80 + n % 0x40]
  else if n < 0x10000 then
    [0xe0 + n / 0x1000, 0x80 + n / 0x40 % 0x40, 0x80 + n % 0x40]
  else
    [0xf0 + n / 0x40000, 0x80 + n / 0x1000 % 0x40,
     0x80 + n / 0x40 % 0x40, 0x80 + n % 0x40]

/-- JS encodeURIComponent. -/
def encodeURIComponent (s : String) : String :=
  String.mk (s.data.flatMap (fun c =>
    if encUnreserved c then [c]
    else (utf8Bytes c).flatMap (fun b => ['%', hexDigit (b / 16), hexDigit (b % 16)])))

/-- Indexed map with an explicit starting index, used wherever the source
iterates a NodeList with forEach and an index. -/
def mapWithIdx (f : Nat → α → β) : Nat → List α → List β
  | _, [] => []
  | i, a :: l => f i a :: mapWithIdx f (i + 1) l

/-- Indices at which a Boolean observation holds, counting from the given
start index. -/
def boolIdxs : Nat → List Bool → List Nat
  | _, [] => []
  | k, b :: bs => if b then k :: boolIdxs (k + 1) bs else boolIdxs (k + 1) bs

/-! ## Image-carousel data model (image-carousel.js) -/

/-- The iframe built by createYouTubeEmbed, identified by the captured
video id and the autoplay flag; its src attribute is iframeSrc. -/
structure YTEmbed where
  videoId : String
  autoplay : Bool
deriving DecidableEq

/-- The iframe src assigned at image-carousel.js line 19. -/
def iframeSrc (e : YTEmbed) : String :=
  ("https://www.youtube.com/embed/") ++ e.videoId ++ ("?rel=0&enablejsapi=1") ++
    (if e.autoplay then ("&autoplay=1&mute=1") else (""))

/-- createYouTubeEmbed: capture the video id from the URL; null when the
regex does not match (modelled by none). -/
def createYouTubeEmbed (url : String) (autoplay : Bool) : Option YTEmbed :=
  (matchYouTubeId url).map (fun v => { videoId := v, autoplay := autoplay })

/-- One slide wrapper div: video-slide class, contained embed, active class. -/
structure CSlide where
  isVideoSlide : Bool
  embed : Option YTEmbed
  active : Bool
deriving DecidableEq

/-- One indicator button: active class and aria-selected attribute. -/
structure Indicator where
  activeClass : Bool
  ariaSelected : Bool
deriving DecidableEq

/-- One thumbnail button: active class, aria-selected, and the slide index
its click handler captured at construction time. -/
structure Thumbnail where
  activeClass : Bool
  ariaSelected : Bool
  slideIndex : Nat
deriving DecidableEq

/-- Observable carousel state: slide wrappers, indicator strip, thumbnail
strip and the dataset.currentSlide attribute. -/
structure CarouselState where
  slides : List CSlide
  indicators : List Indicator
  thumbnails : List Thumbnail
  currentSlide : Option Nat
deriving DecidableEq

/-- One authored row handed to decorate: the href of its first anchor
matching the youtube.com or youtu.be selector, if any, and whether the row
contains an img element of its own. -/
structure RawSlide where
  ytLink : Option String
  hasOwnImg : Bool
deriving DecidableEq

/-- Per-row slide construction inside decorate (lines 245 to 280): a row
with a parseable YouTube link becomes a video slide holding a
non-autoplaying embed; any other row becomes a plain slide; index 0 starts
active. -/
def buildSlide (idx : Nat) (r : RawSlide) : CSlide :=
  match r.ytLink with
  | some href =>
    match createYouTubeEmbed href false with
    | some e => { isVideoSlide := true, embed := some e, active := idx == 0 }
    | none => { isVideoSlide := false, embed := none, active := idx == 0 }
  | none => { isVideoSlide := false, embed := none, active := idx == 0 }

/-- Whether the original row still offers an img element when
createThumbnails later queries it: rows with a parseable YouTube link had
the link replaced by a preview containing an img (line 264); all other
rows keep whatever img they had. -/
def thumbSourceHasImg (r : RawSlide) : Bool :=
  match r.ytLink with
  | some href => (matchYouTubeId href).isSome || r.hasOwnImg
  | none => r.hasOwnImg

/-- createThumbnails (lines 207 to 233): one button per row that still has
an img, active class and aria-selected set when the row index is 0, and
the row index captured by the click handler. -/
def createThumbnails : Nat → List RawSlide → List Thumbnail
  | _, [] => []
  | i, r :: rs =>
    if thumbSourceHasImg r then
      { activeClass := i == 0, ariaSelected := i == 0, slideIndex := i }
        :: createThumbnails (i + 1) rs
    else createThumbnails (i + 1) rs

/-- createIndicators (lines 182 to 200): one button per slide with
aria-selected set only at index 0; note the source never adds the active
class here. -/
def createIndicators (count : Nat) : List Indicator :=
  (List.range count).map (fun i => { activeClass := false, ariaSelected := i == 0 })

/-- decorate (lines 239 to 316): build the slide wrappers, then, only when
more than one slide exists, the navigation, the indicators, the thumbnails
and the dataset.currentSlide attribute. -/
def decorateCarousel (rows : List RawSlide) : CarouselState :=
  let slides := mapWithIdx buildSlide 0 rows
  if 1 < rows.length then
    { slides := slides
      indicators := createIndicators rows.length
      thumbnails := createThumbnails 0 rows
      currentSlide := some 0 }
  else
    { slides := slides, indicators := [], thumbnails := [], currentSlide := none }

/-- Index normalisation at scrollToSlide lines 124 to 128: any negative
target wraps to the last slide, any target at or past the end wraps to 0. -/
def jsWrap (t : Int) (len : Nat) : Nat :=
  if t < 0 then len - 1
  else if (len : Int) ≤ t then 0
  else t.toNat

/-- The spec formula of Testable Property 1, with JS truncated remainder
semantics for the percent operator. -/
def specIndex (t : Int) (len : Int) : Int :=
  Int.tmod (Int.tmod t len + len) len

/-- The embed rebuild performed by handleVideoPlayback (lines 97, 98, 109,
110): pop the last path segment of the existing iframe src and feed a
reconstructed watch URL back to createYouTubeEmbed. -/
def rebuildEmbed (e : YTEmbed) (autoplay : Bool) : Option YTEmbed :=
  let url := lastSeg (urlPathname (iframeSrc e))
  createYouTubeEmbed (("https://youtube.com/watch?v=") ++ url) autoplay

/-- The pause-all pass of handleVideoPlayback (lines 89 to 102): a slide
with an iframe has its wrapper replaced by a non-autoplay rebuild when
that rebuild succeeds, and keeps the old wrapper otherwise. -/
def pauseSlide (sl : CSlide) : CSlide :=
  match sl.embed with
  | none => sl
  | some e =>
    match rebuildEmbed e false with
    | some e2 => { sl with embed := some e2 }
    | none => sl

/-- The active-slide pass of handleVideoPlayback (lines 104 to 113): when
the slide at the normalised index carries the video-slide class and an
iframe, replace its wrapper with an autoplay rebuild if that succeeds. -/
def playActive (n : Nat) (l : List CSlide) : List CSlide :=
  match l.get? n with
  | none => l
  | some aSl =>
    if aSl.isVideoSlide then
      match aSl.embed with
      | none => l
      | some e =>
        match rebuildEmbed e true with
        | some e2 =>
          mapWithIdx (fun i sl => if i == n then { sl with embed := some e2 } else sl) 0 l
        | none => l
    else l

/-- handleVideoPlayback (lines 85 to 114): pause and rebuild every embed,
then rebuild the active slide's embed as the autoplaying variant. -/
def handleVideoPlayback (l : List CSlide) (n : Nat) : List CSlide :=
  playActive n (l.map pauseSlide)

/-- updateIndicators (lines 59 to 65): toggle the active class and set
aria-selected positionally against the active index. -/
def updateIndicators (inds : List Indicator) (n : Nat) : List Indicator :=
  mapWithIdx (fun i _ => { activeClass := i == n, ariaSelected := i == n }) 0 inds

/-- updateThumbnails (lines 72 to 78): same positional toggle over the
thumbnail buttons. -/
def updateThumbnails (ths : List Thumbnail) (n : Nat) : List Thumbnail :=
  mapWithIdx (fun i th => { th with activeClass := i == n, ariaSelected := i == n }) 0 ths

/-- scrollToSlide (lines 121 to 144): normalise the index, clear every
active class, set the active class at the normalised index, run the video
sync, the indicator and thumbnail updates, and store the index in
dataset.currentSlide. -/
def scrollToSlide (s : CarouselState) (t : Int) : CarouselState :=
  let n := jsWrap t s.slides.length
  let cleared := s.slides.map (fun sl => { sl with active := false })
  let activated :=
    mapWithIdx (fun i sl => if i == n then { sl with active := true } else sl) 0 cleared
  { slides := handleVideoPlayback activated n
    indicators := updateIndicators s.indicators n
    thumbnails := updateThumbnails s.thumbnails n
    currentSlide := some n }

/-- A sequence of goToSlide transitions. -/
def goSeq (s : CarouselState) (ts : List Int) : CarouselState :=
  ts.foldl scrollToSlide s

/-! ### Carousel observations -/

/-- Indices of slides currently carrying the active class. -/
def slideActiveIdxs (s : CarouselState) : List Nat :=
  boolIdxs 0 (s.slides.map (fun sl => sl.active))

/-- Indices of indicators currently carrying the active class. -/
def indicatorActiveIdxs (s : CarouselState) : List Nat :=
  boolIdxs 0 (s.indicators.map (fun ind => ind.activeClass))

/-- Captured slide indices of thumbnails currently carrying the active
class. -/
def thumbActiveTargets (s : CarouselState) : List Nat :=
  (s.thumbnails.filter (fun th => th.activeClass)).map (fun th => th.slideIndex)

/-- All three views agree on a single active index. -/
def markersAligned (s : CarouselState) : Bool :=
  match slideActiveIdxs s with
  | [n] => indicatorActiveIdxs s == [n] && thumbActiveTargets s == [n]
  | _ => false

/-- A video id as the capture produces it for ordinary YouTube ids: 11
characters from the regex class, none of which the URL parser would strip
from a path segment. -/
def validId (id : String) : Bool :=
  id.length == 11 && id.data.all (fun c => isIdChar c && !(c == '#') && !(c == '\\'))

/-- The shape of every capture the regex matcher can return: 11 characters
from the id character class. -/
def goodCap (cap : List Char) : Prop :=
  cap.length = 11 ∧ ∀ c ∈ cap, isIdChar c = true

/-- Structural facts every decorated multi-slide all-image carousel enjoys
and every transition preserves: at least one slide, one indicator per
slide, and thumbnails whose captured indices enumerate the slides in
order. -/
def syncInv (s : CarouselState) : Prop :=
  1 ≤ s.slides.length ∧ s.indicators.length = s.slides.length ∧
    s.thumbnails.map (fun th => th.slideIndex) = List.range' 0 s.slides.length

/-! ## Video-hero data model (src/unnamed/part_002) -/

/-- The suffix of query parameters appended by embedYoutube (lines 10 to
31), in Object.entries insertion order, each value passed through
encodeURIComponent, with playlist set to the video id when one was found. -/
def youtubeSuffix (playlist : String) : String :=
  ("&") ++ String.intercalate ("&")
    (([(("autoplay"), ("1")), (("mute"), ("1")), (("controls"), ("0")),
       (("disablekb"), ("1")), (("loop"), ("1")), (("playsinline"), ("1")),
       (("playlist"), playlist)]).map (fun kv => kv.1 ++ ("=") ++ encodeURIComponent kv.2))

/-- embedYoutube (lines 8 to 42): the v query parameter (encoded) is the
default id, overridden by the first path segment for youtu.be origins;
the iframe src embeds the id twice plus the parameter suffix, or falls
back to the bare pathname when no id was found. -/
def embedYoutube (url : ParsedURL) : String :=
  let uspV := searchParamGet url.search ("v")
  let vid0 := match uspV with
    | some v => if v = ("") then ("") else encodeURIComponent v
    | none => ("")
  let embed := url.pathname
  let vid :=
    if containsSub url.origin ("youtu.be") then
      match (splitOnCharL '/' url.pathname.data).get? 1 with
      | some seg => String.mk seg
      | none => ("")
    else vid0
  let playlist := if vid ≠ ("") then vid else ("")
  if vid ≠ ("") then
    ("https://www.youtube.com/embed/") ++ vid ++ ("?rel=0&v=") ++ vid ++ youtubeSuffix playlist
  else ("https://www.youtube.com") ++ embed

/-- embedVimeo (lines 44 to 63): first path segment as the video id with a
fixed background-autoplay parameter set. -/
def embedVimeo (url : ParsedURL) : String :=
  let video := match (splitOnCharL '/' url.pathname.data).get? 1 with
    | some seg => String.mk seg
    | none => ("")
  ("https://player.vimeo.com/video/") ++ video ++
    ("?autoplay=1&background=1&loop=1&muted=1")

/-- getVideoElement (lines 65 to 88): the media type is derived from the
final dot-separated chunk of the source. -/
def videoMediaType (source : String) : String :=
  ("video/") ++
    (match (splitOnCharL '.' source.data).getLast? with
     | some seg => String.mk seg
     | none => (""))

/-- One constructed hero embed wrapper: YouTube iframe, Vimeo iframe, or
native video element. -/
inductive HeroEmbed where
  | youtubeIframe (src : String)
  | vimeoIframe (src : String)
  | videoTag (src : String) (mediaType : String)
deriving DecidableEq

/-- Observable video-hero state: the captured link, the replaced text
content on failure, the dataset.embedLoaded string, the constructed embed
wrappers (newest first), whether the intersection observer was built and
is still connected, and the no-video fallback class. -/
structure HeroState where
  link : Option String
  message : Option String
  embedLoaded : Option String
  embeds : List HeroEmbed
  observerConstructed : Bool
  observerActive : Bool
  noVideoClass : Bool
deriving DecidableEq

/-- decorate (lines 122 to 173): without an anchor the block text is
replaced and nothing else happens; otherwise the block is rebuilt, the
embedLoaded dataset is initialised to the string false, and a one-shot
intersection observer is attached. -/
def decorateHero (link : Option String) : HeroState :=
  match link with
  | none =>
    { link := none, message := some ("Video URL is required"), embedLoaded := none,
      embeds := [], observerConstructed := false, observerActive := false,
      noVideoClass := false }
  | some l =>
    { link := some l, message := none, embedLoaded := some ("false"),
      embeds := [], observerConstructed := true, observerActive := true,
      noVideoClass := false }

/-- loadVideoEmbed (lines 90 to 120): bail out when the dataset flag
already reads true, otherwise construct exactly one provider embed chosen
by URL substring markers.  A link new URL rejects would throw before any
insertion, leaving the state unchanged, which the none branch models. -/
def loadVideoEmbed (s : HeroState) (link : String) : HeroState :=
  if s.embedLoaded = some ("true") then s
  else
    match parseURL link with
    | none => s
    | some url =>
      let isYoutube := containsSub link ("youtube") || containsSub link ("youtu.be")
      let isVimeo := containsSub link ("vimeo")
      if isYoutube then
        { s with embeds := HeroEmbed.youtubeIframe (embedYoutube url) :: s.embeds }
      else if isVimeo then
        { s with embeds := HeroEmbed.vimeoIframe (embedVimeo url) :: s.embeds }
      else
        { s with embeds := HeroEmbed.videoTag link (videoMediaType link) :: s.embeds }

/-- Events delivered to the hero block: an intersection-observer callback
carrying whether any entry intersects and the reduced-motion preference
sampled at that moment, or the embed's load / canplay event. -/
inductive HeroEvent where
  | intersect (isIntersecting : Bool) (reducedMotion : Bool)
  | mediaLoaded
deriving DecidableEq

/-- One event step (lines 104 to 118 and 160 to 172): a connected observer
seeing an intersecting entry disconnects itself, then either loads the
embed or applies the no-video class according to the reduced-motion
preference; the media load event flips the dataset flag to true once an
embed with the attached listener exists. -/
def heroStep (s : HeroState) (e : HeroEvent) : HeroState :=
  match e with
  | HeroEvent.intersect inter rm =>
    if s.observerActive && inter then
      let s1 := { s with observerActive := false }
      if rm then { s1 with noVideoClass := true }
      else
        match s1.link with
        | some l => loadVideoEmbed s1 l
        | none => s1
    else s
  | HeroEvent.mediaLoaded =>
    if s.embeds.length > 0 then { s with embedLoaded := some ("true") } else s

/-- A whole delivered event history. -/
def runHero (s : HeroState) (es : List HeroEvent) : HeroState :=
  es.foldl heroStep s

/-- The reduced-motion preference an event samples; the media load event
carries none, so it vacuously respects any preference. -/
def eventRM : HeroEvent → Bool
  | HeroEvent.intersect _ rm => rm
  | HeroEvent.mediaLoaded => true

/-! ## Concrete inputs used by witnesses and counterexamples -/

/-- Three authored rows that are plain images. -/
def demoImageRows : List RawSlide :=
  [{ ytLink := none, hasOwnImg := true }, { ytLink := none, hasOwnImg := true },
   { ytLink := none, hasOwnImg := true }]

/-- The concrete scenario of Testable Property 7: image, video with id
XYZ12345678, image. -/
def demoVideoRows : List RawSlide :=
  [{ ytLink := none, hasOwnImg := true },
   { ytLink := some ("https://youtu.be/XYZ12345678"), hasOwnImg := false },
   { ytLink := none, hasOwnImg := true }]

/-- An image row next to a row whose video URL carries no id and which has
no image of its own. -/
def demoMixedRows : List RawSlide :=
  [{ ytLink := none, hasOwnImg := true },
   { ytLink := some ("https://youtube.com/"), hasOwnImg := false }]

/-- Two plain image rows. -/
def demoTwoImageRows : List RawSlide :=
  [{ ytLink := none, hasOwnImg := true }, { ytLink := none, hasOwnImg := true }]

/-! ## List-level helper lemmas -/

theorem mapWithIdx_length (f : Nat → α → β) :
    ∀ (l : List α) (k : Nat), (mapWithIdx f k l).length = l.length
  | [], _ => rfl
  | _ :: l, k => by simp [mapWithIdx, mapWithIdx_length f l (k + 1)]

theorem mapWithIdx_map_right (f : Nat → β → γ) (g : α → β) :
    ∀ (l : List α) (k : Nat),
      mapWithIdx f k (l.map g) = mapWithIdx (fun i a => f i (g a)) k l
  | [], _ => rfl
  | _ :: l, k => by simp [mapWithIdx, mapWithIdx_map_right f g l (k + 1)]

theorem map_mapWithIdx (f : Nat → α → β) (g : β → γ) :
    ∀ (l : List α) (k : Nat),
      (mapWithIdx f k l).map g = mapWithIdx (fun i a => g (f i a)) k l
  | [], _ => rfl
  | _ :: l, k => by simp [mapWithIdx, map_mapWithIdx f g l (k + 1)]

theorem mapWithIdx_congr {f g : Nat → α → β} (h : ∀ i a, f i a = g i a) :
    ∀ (l : List α) (k : Nat), mapWithIdx f k l = mapWithIdx g k l
  | [], _ => rfl
  | _ :: l, k => by simp [mapWithIdx, h, mapWithIdx_congr h l (k + 1)]

theorem mapWithIdx_const_fun (g : α → β) :
    ∀ (l : List α) (k : Nat), mapWithIdx (fun _ a => g a) k l = l.map g
  | [], _ => rfl
  | _ :: l, k => by simp [mapWithIdx, mapWithIdx_const_fun g l (k + 1)]

theorem mapWithIdx_map_flags (f : Nat → α → β) (g : β → Bool) (v : Nat → Bool)
    (h : ∀ i a, g (f i a) = v i) :
    ∀ (l : List α) (k : Nat),
      (mapWithIdx f k l).map g = (List.range' k l.length).map v
  | [], _ => rfl
  | _ :: l, k => by
    simp [mapWithIdx, List.range'_succ, h, mapWithIdx_map_flags f g v h l (k + 1)]

theorem boolIdxs_range_flags (n : Nat) :
    ∀ (len k : Nat),
      boolIdxs k ((List.range' k len).map (fun i => i == n)) =
        if k ≤ n ∧ n < k + len then [n] else []
  | 0, k => by
    simp only [List.range'_zero, List.map_nil, boolIdxs]
    split_ifs with h
    · omega
    · rfl
  | len + 1, k => by
    rw [List.range'_succ, List.map_cons]
    simp only [boolIdxs]
    by_cases hk : k = n
    · rw [if_pos (by simp [hk] : ((k == n) = true))]
      rw [boolIdxs_range_flags n len (k + 1)]
      rw [if_neg (by omega : ¬(k + 1 ≤ n ∧ n < k + 1 + len))]
      rw [if_pos (by omega : k ≤ n ∧ n < k + (len + 1))]
      rw [hk]
    · rw [if_neg (by simp [hk] : ¬((k == n) = true))]
      rw [boolIdxs_range_flags n len (k + 1)]
      split_ifs with h1 h2 <;> first | rfl | omega

/-! ## Carousel lemmas -/

theorem pauseSlide_active (sl : CSlide) : (pauseSlide sl).active = sl.active := by
  unfold pauseSlide
  split
  · rfl
  · split <;> rfl

theorem map_pause_active (l : List CSlide) :
    (l.map pauseSlide).map (fun x => x.active) = l.map (fun x => x.active) := by
  rw [List.map_map]
  have : (fun x => x.active) ∘ pauseSlide = fun (x : CSlide) => x.active := by
    funext sl; exact pauseSlide_active sl
  rw [this]

theorem mapWithIdx_setEmbed_map_active (n : Nat) (e2 : YTEmbed) (l : List CSlide) :
    (mapWithIdx (fun i sl => if i == n then { sl with embed := some e2 } else sl) 0 l).map
        (fun x => x.active) = l.map (fun x => x.active) := by
  rw [map_mapWithIdx]
  refine Eq.trans (mapWithIdx_congr ?_ l 0) (mapWithIdx_const_fun _ l 0)
  intro i sl
  by_cases hi : (i == n) = true <;> simp [hi]

theorem playActive_map_active (n : Nat) (l : List CSlide) :
    (playActive n l).map (fun x => x.active) = l.map (fun x => x.active) := by
  unfold playActive
  split
  · rfl
  · split
    · split
      · rfl
      · split
        · exact mapWithIdx_setEmbed_map_active n _ l
        · rfl
    · rfl

theorem hvp_map_active (l : List CSlide) (n : Nat) :
    (handleVideoPlayback l n).map (fun x => x.active) = l.map (fun x => x.active) := by
  unfold handleVideoPlayback
  rw [playActive_map_active, map_pause_active]

theorem playActive_length (n : Nat) (l : List CSlide) :
    (playActive n l).length = l.length := by
  unfold playActive
  split
  · rfl
  · split
    · split
      · rfl
      · split
        · rw [mapWithIdx_length]
        · rfl
    · rfl

theorem hvp_length (l : List CSlide) (n : Nat) :
    (handleVideoPlayback l n).length = l.length := by
  unfold handleVideoPlayback
  rw [playActive_length, List.length_map]

theorem jsWrap_lt (t : Int) (len : Nat) (h : 1 ≤ len) : jsWrap t len < len := by
  unfold jsWrap
  split_ifs <;> omega

theorem active_flags_scroll (l : List CSlide) (n : Nat) :
    (mapWithIdx (fun i sl => if i == n then { sl with active := true } else sl) 0
        (l.map (fun x => { x with active := false }))).map (fun x => x.active)
      = (List.range' 0 l.length).map (fun i => i == n) := by
  rw [mapWithIdx_map_right]
  rw [mapWithIdx_map_flags _ _ (fun i => i == n)
    (by
      intro i a
      by_cases hi : (i == n) = true <;> simp [hi])]

theorem scroll_activeIdxs (s : CarouselState) (t : Int) (h : 1 ≤ s.slides.length) :
    slideActiveIdxs (scrollToSlide s t) = [jsWrap t s.slides.length] := by
  unfold slideActiveIdxs scrollToSlide
  simp only
  rw [hvp_map_active, active_flags_scroll, boolIdxs_range_flags]
  have hn := jsWrap_lt t s.slides.length h
  rw [if_pos ⟨Nat.zero_le _, by omega⟩]

/-- The length of the slide list is stable under a transition. -/
theorem scroll_slides_length (s : CarouselState) (t : Int) :
    (scrollToSlide s t).slides.length = s.slides.length := by
  unfold scrollToSlide
  simp only
  rw [hvp_length, mapWithIdx_length, List.length_map]

/-- One thumbnail per row that still offers an image. -/
theorem createThumbnails_length :
    ∀ (rows : List RawSlide) (k : Nat),
      (createThumbnails k rows).length = rows.countP thumbSourceHasImg
  | [], _ => rfl
  | r :: rows, k => by
    unfold createThumbnails
    by_cases h : thumbSourceHasImg r = true <;>
      simp [h, createThumbnails_length rows (k + 1), List.countP_cons]

/-! ## Claim C1 -/

/-- C1 (amended): for every integer targetIndex and every carousel with at
least one slide, goToSlide leaves exactly one slide carrying the active
class, and that slide's index is the source's wraparound of the target:
length - 1 for any negative target, 0 for any target at or past the end,
and the target itself otherwise.  (The spec's Euclidean-modulo formula
only agrees with this on targets between -1 and length.) -/
theorem claim1_goToSlide_active_index (s : CarouselState) (t : Int)
    (h : 1 ≤ s.slides.length) :
    slideActiveIdxs (scrollToSlide s t) = [jsWrap t s.slides.length] :=
  scroll_activeIdxs s t h

/-- Witness for C1: a three-image carousel at target 5 has exactly one
active slide, at the wrapped index. -/
theorem claim1_witness :
    1 ≤ (decorateCarousel demoImageRows).slides.length ∧
      slideActiveIdxs (scrollToSlide (decorateCarousel demoImageRows) 5)
        = [jsWrap 5 (decorateCarousel demoImageRows).slides.length] :=
  ⟨by decide,
    claim1_goToSlide_active_index (decorateCarousel demoImageRows) 5 (by decide)⟩

/-- Counterexample for C1 as stated: goToSlide(-2) on a three-slide
carousel activates index 2, while the spec formula
((targetIndex % length) + length) % length yields 1. -/
theorem claim1_counterexample :
    slideActiveIdxs (scrollToSlide (decorateCarousel demoImageRows) (-2)) = [2] ∧
      specIndex (-2) 3 = 1 ∧ ¬ ((2 : Int) = specIndex (-2) 3) := by decide

/-! ## Claim C3 -/

/-- C3 (amended): for every carousel input with more than one slide, the
indicator count equals slides.length, but the thumbnail count equals the
number of rows that still offer an image when createThumbnails queries
them; a row with neither a parseable video URL nor an image of its own
produces no thumbnail. -/
theorem claim3_counts (rows : List RawSlide) (h : 1 < rows.length) :
    (decorateCarousel rows).indicators.length = rows.length ∧
      (decorateCarousel rows).thumbnails.length = rows.countP thumbSourceHasImg := by
  simp only [decorateCarousel]
  rw [if_pos h]
  exact ⟨by simp [createIndicators], createThumbnails_length rows 0⟩

/-- Witness for C3: the mixed two-row input satisfies the hypothesis and
the amended counts. -/
theorem claim3_witness :
    1 < demoMixedRows.length ∧
      ((decorateCarousel demoMixedRows).indicators.length = demoMixedRows.length ∧
        (decorateCarousel demoMixedRows).thumbnails.length
          = demoMixedRows.countP thumbSourceHasImg) :=
  ⟨by decide, claim3_counts demoMixedRows (by decide)⟩

/-- Counterexample for C3 as stated: an image row next to a row with an
unparseable video URL and no image yields 2 indicators but only 1
thumbnail, not slides.length of each. -/
theorem claim3_counterexample :
    (decorateCarousel demoMixedRows).indicators.length = 2 ∧
      (decorateCarousel demoMixedRows).thumbnails.length = 1 ∧ ¬ (1 = 2) := by decide

/-! ## Claim C5 -/

/-- C5 (amended): on the concrete carousel image, video XYZ12345678,
image, goToSlide(-1) from the initial state activates index 2 as the spec
says, but the subsequent goToSlide(4) wraps to index 0, not 1: the image
slide A is active, the video slide keeps a non-autoplaying embed, and
slides 0 and 2 carry no embed. -/
theorem claim5_scenario :
    slideActiveIdxs (scrollToSlide (decorateCarousel demoVideoRows) (-1)) = [2] ∧
      slideActiveIdxs
          (scrollToSlide (scrollToSlide (decorateCarousel demoVideoRows) (-1)) 4) = [0] ∧
      (scrollToSlide (scrollToSlide (decorateCarousel demoVideoRows) (-1)) 4).slides.map
          (fun sl => sl.embed)
        = [none, some { videoId := ("XYZ12345678"), autoplay := false }, none] := by decide

/-- Counterexample for C5 as stated: after goToSlide(-1) then
goToSlide(4), the active index is not 1. -/
theorem claim5_counterexample :
    ¬ (slideActiveIdxs
        (scrollToSlide (scrollToSlide (decorateCarousel demoVideoRows) (-1)) 4) = [1]) := by
  decide

/-! ## Claim C4 lemmas -/

theorem indicator_flags_update (inds : List Indicator) (n : Nat) :
    (updateIndicators inds n).map (fun i => i.activeClass)
      = (List.range' 0 inds.length).map (fun i => i == n) := by
  unfold updateIndicators
  exact mapWithIdx_map_flags _ _ (fun i => i == n) (fun i a => rfl) inds 0

theorem thumb_targets_update :
    ∀ (ths : List Thumbnail) (k n : Nat),
      ths.map (fun th => th.slideIndex) = List.range' k ths.length →
      ((mapWithIdx (fun i th => { th with activeClass := i == n, ariaSelected := i == n })
            k ths).filter (fun th => th.activeClass)).map (fun th => th.slideIndex)
        = if k ≤ n ∧ n < k + ths.length then [n] else []
  | [], k, n, _ => by
    simp only [List.length_nil]
    rw [if_neg (by omega : ¬ (k ≤ n ∧ n < k + 0))]
    rfl
  | th :: ths, k, n, h => by
    rw [List.map_cons, List.length_cons, List.range'_succ] at h
    have hh := List.cons_eq_cons.mp h
    simp only [mapWithIdx, List.filter_cons]
    by_cases hk : k = n
    · rw [if_pos (show (k == n) = true by simp [hk]), List.map_cons]
      rw [thumb_targets_update ths (k + 1) n hh.2]
      rw [if_neg (by omega : ¬ (k + 1 ≤ n ∧ n < k + 1 + ths.length))]
      rw [List.length_cons]
      rw [if_pos (by omega : k ≤ n ∧ n < k + (ths.length + 1))]
      show th.slideIndex :: [] = [n]
      rw [hh.1, hk]
    · rw [if_neg (show ¬ ((k == n) = true) by simp [hk])]
      rw [thumb_targets_update ths (k + 1) n hh.2, List.length_cons]
      split_ifs with h1 h2 <;> first | rfl | omega

theorem scroll_inds_length (s : CarouselState) (t : Int) :
    (scrollToSlide s t).indicators.length = s.indicators.length := by
  unfold scrollToSlide updateIndicators
  simp only
  rw [mapWithIdx_length]

theorem scroll_thumbs_targets (s : CarouselState) (t : Int) :
    (scrollToSlide s t).thumbnails.map (fun th => th.slideIndex)
      = s.thumbnails.map (fun th => th.slideIndex) := by
  unfold scrollToSlide updateThumbnails
  simp only
  rw [map_mapWithIdx]
  exact Eq.trans (mapWithIdx_congr (fun i a => rfl) s.thumbnails 0)
    (mapWithIdx_const_fun _ s.thumbnails 0)

theorem scroll_syncInv (s : CarouselState) (t : Int) (h : syncInv s) :
    syncInv (scrollToSlide s t) := by
  obtain ⟨h1, h2, h3⟩ := h
  refine ⟨?_, ?_, ?_⟩
  · rw [scroll_slides_length]; exact h1
  · rw [scroll_inds_length, scroll_slides_length]; exact h2
  · rw [scroll_thumbs_targets, scroll_slides_length]; exact h3

theorem scroll_aligned (s : CarouselState) (t : Int) (h : syncInv s) :
    markersAligned (scrollToSlide s t) = true := by
  obtain ⟨h1, h2, h3⟩ := h
  have hlen : s.thumbnails.length = s.slides.length := by
    have hc := congrArg List.length h3
    simpa using hc
  have hn := jsWrap_lt t s.slides.length h1
  unfold markersAligned
  rw [scroll_activeIdxs s t h1]
  have hind : indicatorActiveIdxs (scrollToSlide s t) = [jsWrap t s.slides.length] := by
    unfold indicatorActiveIdxs
    show boolIdxs 0 ((updateIndicators s.indicators _).map (fun i => i.activeClass)) = _
    rw [indicator_flags_update, boolIdxs_range_flags]
    rw [if_pos ⟨Nat.zero_le _, by omega⟩]
  have hth : thumbActiveTargets (scrollToSlide s t) = [jsWrap t s.slides.length] := by
    unfold thumbActiveTargets
    show ((updateThumbnails s.thumbnails _).filter (fun th => th.activeClass)).map
        (fun th => th.slideIndex) = _
    unfold updateThumbnails
    rw [thumb_targets_update s.thumbnails 0 _ (by rw [hlen]; exact h3)]
    rw [if_pos ⟨Nat.zero_le _, by omega⟩]
  rw [hind, hth]
  simp

theorem goSeq_aligned :
    ∀ (ts : List Int) (s : CarouselState), syncInv s → markersAligned s = true →
      markersAligned (goSeq s ts) = true
  | [], _, _, hm => hm
  | t :: ts, s, hinv, _ => by
    show markersAligned (goSeq (scrollToSlide s t) ts) = true
    exact goSeq_aligned ts (scrollToSlide s t) (scroll_syncInv s t hinv)
      (scroll_aligned s t hinv)

theorem createThumbnails_targets :
    ∀ (rows : List RawSlide) (k : Nat), rows.all thumbSourceHasImg = true →
      (createThumbnails k rows).map (fun th => th.slideIndex) = List.range' k rows.length
  | [], _, _ => rfl
  | r :: rows, k, h => by
    have hr : thumbSourceHasImg r = true := (List.all_cons .. ▸ h |> Bool.and_elim_left)
    have ht : rows.all thumbSourceHasImg = true := (List.all_cons .. ▸ h |> Bool.and_elim_right)
    simp only [createThumbnails]
    rw [if_pos hr, List.map_cons, List.length_cons, List.range'_succ]
    rw [createThumbnails_targets rows (k + 1) ht]

theorem decorate_syncInv (rows : List RawSlide) (h1 : 1 < rows.length)
    (h2 : rows.all thumbSourceHasImg = true) : syncInv (decorateCarousel rows) := by
  simp only [decorateCarousel]
  rw [if_pos h1]
  refine ⟨?_, ?_, ?_⟩
  · show 1 ≤ (mapWithIdx buildSlide 0 rows).length
    rw [mapWithIdx_length]; omega
  · show (createIndicators rows.length).length = (mapWithIdx buildSlide 0 rows).length
    rw [mapWithIdx_length]
    simp [createIndicators]
  · show (createThumbnails 0 rows).map (fun th => th.slideIndex)
      = List.range' 0 (mapWithIdx buildSlide 0 rows).length
    rw [mapWithIdx_length, createThumbnails_targets rows 0 h2]

theorem buildSlide_active (i : Nat) (r : RawSlide) : (buildSlide i r).active = (i == 0) := by
  unfold buildSlide
  split
  · split <;> rfl
  · rfl

theorem decorate_activeIdxs (rows : List RawSlide) (h : 1 ≤ rows.length) :
    slideActiveIdxs (decorateCarousel rows) = [0] := by
  unfold slideActiveIdxs
  have hs : (decorateCarousel rows).slides = mapWithIdx buildSlide 0 rows := by
    simp only [decorateCarousel]
    split_ifs <;> rfl
  rw [hs]
  rw [mapWithIdx_map_flags buildSlide (fun sl => sl.active) (fun i => i == 0)
    buildSlide_active rows 0]
  rw [boolIdxs_range_flags]
  rw [if_pos ⟨Nat.le_refl 0, by omega⟩]

theorem boolIdxs_constFalse : ∀ (l : List α) (k : Nat),
    boolIdxs k (l.map (fun _ => false)) = []
  | [], _ => rfl
  | _ :: l, k => by
    simp only [List.map_cons, boolIdxs, Bool.false_eq_true, if_false]
    exact boolIdxs_constFalse l (k + 1)

theorem decorate_indicatorIdxs (rows : List RawSlide) :
    indicatorActiveIdxs (decorateCarousel rows) = [] := by
  unfold indicatorActiveIdxs
  simp only [decorateCarousel]
  split_ifs
  · show boolIdxs 0 ((createIndicators rows.length).map (fun i => i.activeClass)) = []
    unfold createIndicators
    rw [List.map_map]
    show boolIdxs 0 ((List.range rows.length).map (fun _ => false)) = []
    exact boolIdxs_constFalse (List.range rows.length) 0
  · rfl

theorem createThumbnails_init_targets :
    ∀ (rows : List RawSlide) (k : Nat), rows.all thumbSourceHasImg = true →
      ((createThumbnails k rows).filter (fun th => th.activeClass)).map
          (fun th => th.slideIndex)
        = if k = 0 ∧ 1 ≤ rows.length then [0] else []
  | [], k, _ => by
    simp only [List.length_nil]
    rw [if_neg (by omega : ¬ (k = 0 ∧ 1 ≤ 0))]
    rfl
  | r :: rows, k, h => by
    have hr : thumbSourceHasImg r = true := (List.all_cons .. ▸ h |> Bool.and_elim_left)
    have ht : rows.all thumbSourceHasImg = true := (List.all_cons .. ▸ h |> Bool.and_elim_right)
    simp only [createThumbnails]
    rw [if_pos hr]
    simp only [List.filter_cons]
    by_cases hk : k = 0
    · rw [if_pos (show (k == 0) = true by simp [hk]), List.map_cons]
      rw [createThumbnails_init_targets rows (k + 1) ht]
      rw [if_neg (by omega : ¬ (k + 1 = 0 ∧ 1 ≤ rows.length))]
      rw [List.length_cons]
      rw [if_pos (by omega : k = 0 ∧ 1 ≤ rows.length + 1)]
      show k :: [] = [0]
      rw [hk]
    · rw [if_neg (show ¬ ((k == 0) = true) by simp [hk])]
      rw [createThumbnails_init_targets rows (k + 1) ht, List.length_cons]
      rw [if_neg (by omega : ¬ (k + 1 = 0 ∧ 1 ≤ rows.length))]
      rw [if_neg (by omega : ¬ (k = 0 ∧ 1 ≤ rows.length + 1))]

theorem decorate_thumbTargets (rows : List RawSlide) (h1 : 1 < rows.length)
    (h2 : rows.all thumbSourceHasImg = true) :
    thumbActiveTargets (decorateCarousel rows) = [0] := by
  unfold thumbActiveTargets
  simp only [decorateCarousel]
  rw [if_pos h1]
  show ((createThumbnails 0 rows).filter (fun th => th.activeClass)).map
      (fun th => th.slideIndex) = [0]
  rw [createThumbnails_init_targets rows 0 h2]
  rw [if_pos ⟨rfl, by omega⟩]

/-! ## Claim C4 -/

/-- C4 (amended): for a multi-slide carousel all of whose rows offer an
image (so that thumbnails line up with slides), every state reached by at
least one goToSlide transition has its slide, indicator and thumbnail
active markers agreeing on one index; in the freshly decorated state the
active slide and the active thumbnail agree on index 0, but no indicator
carries the active class, because createIndicators only sets
aria-selected. -/
theorem claim4_markers_sync (rows : List RawSlide) (h1 : 1 < rows.length)
    (h2 : rows.all thumbSourceHasImg = true) (t : Int) (ts : List Int) :
    markersAligned (goSeq (scrollToSlide (decorateCarousel rows) t) ts) = true ∧
      slideActiveIdxs (decorateCarousel rows) = [0] ∧
      thumbActiveTargets (decorateCarousel rows) = [0] ∧
      indicatorActiveIdxs (decorateCarousel rows) = [] := by
  have hinv := decorate_syncInv rows h1 h2
  exact ⟨goSeq_aligned ts _ (scroll_syncInv _ t hinv) (scroll_aligned _ t hinv),
    decorate_activeIdxs rows (by omega), decorate_thumbTargets rows h1 h2,
    decorate_indicatorIdxs rows⟩

/-- Witness for C4: two image rows, one transition to index 1 followed by
transitions to 0 and (wrapped) 5. -/
theorem claim4_witness :
    (1 < demoTwoImageRows.length ∧ demoTwoImageRows.all thumbSourceHasImg = true) ∧
      (markersAligned (goSeq (scrollToSlide (decorateCarousel demoTwoImageRows) 1) [0, 5])
          = true ∧
        slideActiveIdxs (decorateCarousel demoTwoImageRows) = [0] ∧
        thumbActiveTargets (decorateCarousel demoTwoImageRows) = [0] ∧
        indicatorActiveIdxs (decorateCarousel demoTwoImageRows) = []) :=
  ⟨⟨by decide, by decide⟩,
    claim4_markers_sync demoTwoImageRows (by decide) (by decide) 1 [0, 5]⟩

/-- Counterexample for C4 as stated: the freshly decorated two-image
carousel is a reachable state (empty transition sequence) in which slide 0
carries the active class but no indicator does, so the indicator marker
cannot point at the active slide's index. -/
theorem claim4_counterexample :
    slideActiveIdxs (decorateCarousel demoTwoImageRows) = [0] ∧
      indicatorActiveIdxs (decorateCarousel demoTwoImageRows) = [] ∧
      markersAligned (decorateCarousel demoTwoImageRows) = false := by decide

/-! ## Regex and URL round-trip lemmas (for C10 and C6)

An ordinary 11-character video id (validId) survives the teardown and
rebuild of handleVideoPlayback: the embed src's pathname ends in the id,
the id pops back out, and the reconstructed watch URL matches the regex at
the position of the youtube.com literal. -/

theorem tryAt_watchV (cs cap : List Char) (h : tryCapture cs = some cap) :
    tryAt (("youtube.com/watch?v=").data ++ cs) = some cap := by
  have e : tryAt (("youtube.com/watch?v=").data ++ cs)
      = (match tryCapture cs with
         | some c => some c
         | none => tryWatchQ (("/watch?v=").data ++ cs)) := rfl
  rw [e, h]

theorem matchScan_hit (c : Char) (cs : List Char) (cap : List Char)
    (h : tryAt (c :: cs) = some cap) : matchScan (c :: cs) = some cap := by
  unfold matchScan
  rw [h]

theorem matchScan_skip (c : Char) (cs : List Char) (h : tryAt (c :: cs) = none) :
    matchScan (c :: cs) = matchScan cs := by
  conv_lhs => unfold matchScan
  rw [h]

theorem matchScan_watchV (cs cap : List Char) (h : tryCapture cs = some cap) :
    matchScan (("https://youtube.com/watch?v=").data ++ cs) = some cap := by
  have h1 := matchScan_skip 'h' (("ttps://youtube.com/watch?v=").data ++ cs) (by rfl)
  have h2 := matchScan_skip 't' (("tps://youtube.com/watch?v=").data ++ cs) (by rfl)
  have h3 := matchScan_skip 't' (("ps://youtube.com/watch?v=").data ++ cs) (by rfl)
  have h4 := matchScan_skip 'p' (("s://youtube.com/watch?v=").data ++ cs) (by rfl)
  have h5 := matchScan_skip 's' (("://youtube.com/watch?v=").data ++ cs) (by rfl)
  have h6 := matchScan_skip ':' (("//youtube.com/watch?v=").data ++ cs) (by rfl)
  have h7 := matchScan_skip '/' (("/youtube.com/watch?v=").data ++ cs) (by rfl)
  have h8 := matchScan_skip '/' (("youtube.com/watch?v=").data ++ cs) (by rfl)
  have h9 := matchScan_hit 'y' (("outube.com/watch?v=").data ++ cs) cap
    (tryAt_watchV cs cap h)
  exact h1.trans (h2.trans (h3.trans (h4.trans (h5.trans (h6.trans (h7.trans
    (h8.trans h9)))))))

theorem takePath_append :
    ∀ (m : List Char), (∀ c ∈ m, ¬ c = '?' ∧ ¬ c = '#' ∧ ¬ c = '\\') →
      ∀ (r : List Char), takePath (m ++ '?' :: r) = m
  | [], _, r => by simp [takePath]
  | c :: m, h, r => by
    obtain ⟨h1, h2, h3⟩ := h c (List.mem_cons_self c m)
    have hm : ∀ x ∈ m, ¬ x = '?' ∧ ¬ x = '#' ∧ ¬ x = '\\' :=
      fun x hx => h x (List.mem_cons_of_mem c hx)
    simp only [List.cons_append, takePath]
    rw [if_neg (by simp [h1, h2])]
    rw [if_neg h3]
    exact congrArg (fun l => c :: l) (takePath_append m hm r)

theorem urlPathname_embedSrc (idd : List Char) (q : List Char)
    (h : ∀ c ∈ idd, ¬ c = '?' ∧ ¬ c = '#' ∧ ¬ c = '\\') :
    urlPathname (String.mk (("https://www.youtube.com/embed/").data ++ (idd ++ ('?' :: q))))
      = String.mk ('/' :: 'e' :: 'm' :: 'b' :: 'e' :: 'd' :: '/' :: idd) := by
  have e : urlPathname
        (String.mk (("https://www.youtube.com/embed/").data ++ (idd ++ ('?' :: q))))
      = String.mk ('/' :: 'e' :: 'm' :: 'b' :: 'e' :: 'd' :: '/'
          :: takePath (idd ++ ('?' :: q))) := rfl
  rw [e, takePath_append idd h q]

theorem lastSegAux_no_slash :
    ∀ (m acc : List Char), (∀ c ∈ m, ¬ c = '/') →
      lastSegAux m acc = acc.reverse ++ m
  | [], acc, _ => by simp [lastSegAux]
  | c :: m, acc, h => by
    have hc := h c (List.mem_cons_self c m)
    have hm : ∀ x ∈ m, ¬ x = '/' := fun x hx => h x (List.mem_cons_of_mem c hx)
    simp only [lastSegAux]
    rw [if_neg hc, lastSegAux_no_slash m (c :: acc) hm]
    simp

theorem lastSeg_embed (idd : List Char) (h : ∀ c ∈ idd, ¬ c = '/') :
    lastSeg (String.mk ('/' :: 'e' :: 'm' :: 'b' :: 'e' :: 'd' :: '/' :: idd))
      = String.mk idd := by
  have e : lastSeg (String.mk ('/' :: 'e' :: 'm' :: 'b' :: 'e' :: 'd' :: '/' :: idd))
      = String.mk (lastSegAux idd []) := rfl
  rw [e, lastSegAux_no_slash idd [] h]
  rfl

theorem string_eq_of_data {s t : String} (h : s.data = t.data) : s = t := by
  cases s
  cases t
  simp only at h
  rw [h]

theorem iframeSrc_data (idd : List Char) (b : Bool) :
    iframeSrc { videoId := String.mk idd, autoplay := b }
      = String.mk (("https://www.youtube.com/embed/").data
          ++ (idd ++ ('?' :: (if b then ("rel=0&enablejsapi=1&autoplay=1&mute=1")
              else ("rel=0&enablejsapi=1")).data))) := by
  apply string_eq_of_data
  cases b <;> simp [iframeSrc, String.data_append]

theorem isIdChar_ne (c : Char) (h : isIdChar c = true) :
    ¬ c = '"' ∧ ¬ c = '&' ∧ ¬ c = '?' ∧ ¬ c = '/' := by
  unfold isIdChar at h
  simp only [Bool.not_eq_eq_eq_not, Bool.not_true, Bool.or_eq_false_iff] at h
  refine ⟨?_, ?_, ?_, ?_⟩ <;> intro hc <;> subst hc <;> simp at h

theorem validId_spec (id : String) (h : validId id = true) :
    id.data.length = 11 ∧ ∀ c ∈ id.data,
      isIdChar c = true ∧ ¬ c = '#' ∧ ¬ c = '\\' := by
  unfold validId at h
  simp only [Bool.and_eq_true, beq_iff_eq, List.all_eq_true, Bool.not_eq_eq_eq_not,
    Bool.not_true] at h
  constructor
  · exact h.1
  · intro c hc
    have := h.2 c hc
    refine ⟨this.1.1, ?_, ?_⟩ <;> intro hcc <;> subst hcc <;> simp at this

theorem tryCapture_of_valid (id : String) (h : validId id = true) :
    tryCapture id.data = some id.data := by
  obtain ⟨hlen, hall⟩ := validId_spec id h
  unfold tryCapture
  have ht : id.data.take 11 = id.data := by
    rw [← hlen]
    exact List.take_length id.data
  rw [ht]
  rw [if_pos (by simp [hlen, List.all_eq_true]; intro c hc; exact (hall c hc).1)]

theorem match_watch_valid (id : String) (h : validId id = true) :
    matchYouTubeId (("https://youtube.com/watch?v=") ++ id) = some id := by
  unfold matchYouTubeId
  rw [String.data_append]
  rw [matchScan_watchV id.data id.data (tryCapture_of_valid id h)]
  show some (String.mk id.data) = some id
  rfl

theorem rebuild_valid (id : String) (b b2 : Bool) (h : validId id = true) :
    rebuildEmbed { videoId := id, autoplay := b } b2
      = some { videoId := id, autoplay := b2 } := by
  obtain ⟨hlen, hall⟩ := validId_spec id h
  have hq : ∀ c ∈ id.data, ¬ c = '?' ∧ ¬ c = '#' ∧ ¬ c = '\\' := fun c hc =>
    ⟨(isIdChar_ne c (hall c hc).1).2.2.1, (hall c hc).2.1, (hall c hc).2.2⟩
  have hs : ∀ c ∈ id.data, ¬ c = '/' := fun c hc =>
    (isIdChar_ne c (hall c hc).1).2.2.2
  have hx : lastSeg (urlPathname (iframeSrc { videoId := id, autoplay := b })) = id := by
    have e1 : iframeSrc { videoId := id, autoplay := b }
        = String.mk (("https://www.youtube.com/embed/").data
            ++ (id.data ++ ('?' :: (if b then ("rel=0&enablejsapi=1&autoplay=1&mute=1")
                else ("rel=0&enablejsapi=1")).data))) := iframeSrc_data id.data b
    rw [e1, urlPathname_embedSrc id.data _ hq, lastSeg_embed id.data hs]
  unfold rebuildEmbed createYouTubeEmbed
  rw [hx]
  show Option.map (fun v => ({ videoId := v, autoplay := b2 } : YTEmbed))
      (matchYouTubeId (("https://youtube.com/watch?v=") ++ id))
    = some ({ videoId := id, autoplay := b2 } : YTEmbed)
  rw [match_watch_valid id h]
  rfl

/-! ## Claim C10 -/

/-- C10 (amended): for every slide embed built by createYouTubeEmbed from
a parseable URL whose captured 11-character id is an ordinary one (no hash
and no backslash among its characters), each rebuild performed during
video-playback sync reproduces an embed with exactly the same video id, so
repeated teardown and rebuild never changes which video a slide shows.
(An id containing a hash parses, but the hash truncates the embed URL's
pathname, so the rebuild fails and leaves the old wrapper in place.) -/
theorem claim10_rebuild_preserves_id (url : String) (e : YTEmbed) (b : Bool)
    (h1 : createYouTubeEmbed url false = some e) (h2 : validId e.videoId = true) :
    rebuildEmbed e b = some { videoId := e.videoId, autoplay := b } := by
  obtain ⟨vid, ap⟩ := e
  exact rebuild_valid vid ap b h2

/-- Witness for C10: the id XYZ12345678, parsed from a youtu.be URL, is
reproduced by the autoplay rebuild. -/
theorem claim10_witness :
    (createYouTubeEmbed ("https://youtu.be/XYZ12345678") false
        = some { videoId := ("XYZ12345678"), autoplay := false } ∧
      validId ("XYZ12345678") = true) ∧
      rebuildEmbed { videoId := ("XYZ12345678"), autoplay := false } true
        = some { videoId := ("XYZ12345678"), autoplay := true } :=
  ⟨⟨by decide, by decide⟩,
    claim10_rebuild_preserves_id ("https://youtu.be/XYZ12345678")
      { videoId := ("XYZ12345678"), autoplay := false } true (by decide) (by decide)⟩

/-- Counterexample for C10 as stated: the URL youtu.be/ab#cdefghijk is
parseable (the regex class admits a hash), but the sync rebuild of its
embed produces no embed at all, because new URL truncates the pathname at
the hash and the two remaining characters cannot match the regex again. -/
theorem claim10_counterexample :
    createYouTubeEmbed ("https://youtu.be/ab#cdefghijk") false
        = some { videoId := ("ab#cdefghij"), autoplay := false } ∧
      rebuildEmbed { videoId := ("ab#cdefghij"), autoplay := false } true = none := by
  decide



theorem mapWithIdx_mapWithIdx (f g : Nat → α → α) :
    ∀ (l : List α) (k : Nat),
      mapWithIdx f k (mapWithIdx g k l) = mapWithIdx (fun i a => f i (g i a)) k l
  | [], _ => rfl
  | a :: l, k => by simp [mapWithIdx, mapWithIdx_mapWithIdx f g l (k + 1)]

theorem updateIndicators_idem (inds : List Indicator) (n : Nat) :
    updateIndicators (updateIndicators inds n) n = updateIndicators inds n := by
  unfold updateIndicators
  rw [mapWithIdx_mapWithIdx]

theorem updateThumbnails_idem (ths : List Thumbnail) (n : Nat) :
    updateThumbnails (updateThumbnails ths n) n = updateThumbnails ths n := by
  unfold updateThumbnails
  rw [mapWithIdx_mapWithIdx]

theorem reactivate_eq (n : Nat) :
    ∀ (Y : List CSlide) (k : Nat),
      Y.map (fun sl => sl.active) = (List.range' k Y.length).map (fun i => i == n) →
      mapWithIdx (fun i sl => if i == n then { sl with active := true } else sl) k
          (Y.map (fun sl => { sl with active := false })) = Y
  | [], _, _ => rfl
  | y :: Y, k, h => by
    rw [List.map_cons, List.length_cons, List.range'_succ, List.map_cons] at h
    have hh := List.cons_eq_cons.mp h
    simp only [List.map_cons, mapWithIdx]
    congr 1
    · by_cases hk : (k == n) = true
      · rw [if_pos hk]
        have hy : y.active = true := hh.1.trans hk
        show ({ y with active := true } : CSlide) = y
        rw [← hy]
      · rw [if_neg hk]
        have hy : y.active = false := by
          rw [hh.1]
          simpa using hk
        show ({ y with active := false } : CSlide) = y
        rw [← hy]
    · exact reactivate_eq n Y (k + 1) hh.2

theorem mapWithIdx_if_out (f : α → α) (m : Nat) :
    ∀ (l : List α) (k : Nat), m < k →
      mapWithIdx (fun i x => if i == m then f x else x) k l = l
  | [], _, _ => rfl
  | x :: l, k, hm => by
    simp only [mapWithIdx]
    rw [if_neg (by simp only [beq_iff_eq]; omega : ¬ ((k == m) = true))]
    rw [mapWithIdx_if_out f m l (k + 1) (by omega)]

theorem mapWithIdx_if_set (f : α → α) :
    ∀ (l : List α) (k j : Nat) (a : α), l.get? j = some a →
      mapWithIdx (fun i x => if i == k + j then f x else x) k l = l.set j (f a)
  | [], _, j, a, h => by simp at h
  | x :: l, k, 0, a, h => by
    have hx : x = a := by
      simp only [List.get?] at h
      exact Option.some.inj h
    subst hx
    simp only [mapWithIdx, List.set]
    rw [if_pos (by simp : ((k == k + 0) = true))]
    congr 1
    exact mapWithIdx_if_out f (k + 0) l (k + 1) (by omega)
  | x :: l, k, j + 1, a, h => by
    simp only [List.get?] at h
    simp only [mapWithIdx, List.set]
    rw [if_neg (by simp only [beq_iff_eq]; omega : ¬ ((k == k + (j + 1)) = true))]
    congr 1
    have e : (fun (i : Nat) (x : α) => if i == k + (j + 1) then f x else x)
        = fun (i : Nat) (x : α) => if i == (k + 1) + j then f x else x := by
      funext i x
      rw [show k + (j + 1) = (k + 1) + j from by omega]
    rw [e]
    exact mapWithIdx_if_set f l (k + 1) j a h

theorem mapWithIdx_if_set0 (f : α → α) (l : List α) (n : Nat) (a : α)
    (h : l.get? n = some a) :
    mapWithIdx (fun i x => if i == n then f x else x) 0 l = l.set n (f a) := by
  have e : (fun (i : Nat) (x : α) => if i == n then f x else x)
      = fun (i : Nat) (x : α) => if i == 0 + n then f x else x := by
    funext i x
    rw [Nat.zero_add]
  rw [e]
  exact mapWithIdx_if_set f l 0 n a h

theorem set_get_self :
    ∀ (l : List α) (n : Nat) (a : α), l.get? n = some a → l.set n a = l
  | [], _, _, h => by simp at h
  | x :: l, 0, a, h => by
    have hx : x = a := by
      simp only [List.get?] at h
      exact Option.some.inj h
    rw [← hx]
    rfl
  | x :: l, n + 1, a, h => by
    simp only [List.get?] at h
    simp only [List.set]
    rw [set_get_self l n a h]

theorem map_set (f : α → β) :
    ∀ (l : List α) (n : Nat) (a : α), (l.set n a).map f = (l.map f).set n (f a)
  | [], _, _ => rfl
  | x :: l, 0, a => rfl
  | x :: l, n + 1, a => by
    simp only [List.set, List.map_cons]
    rw [map_set f l n a]

theorem map_pause_self (P : List CSlide) (hP : ∀ sl ∈ P, pauseSlide sl = sl) :
    P.map pauseSlide = P := by
  calc P.map pauseSlide = P.map id := List.map_congr_left hP
    _ = P := List.map_id P

theorem takePath_q_indep : ∀ (x q q2 : List Char),
    takePath (x ++ '?' :: q) = takePath (x ++ '?' :: q2)
  | [], _, _ => rfl
  | c :: x, q, q2 => by
    show (if (c = '?' || c = '#') then []
        else (if c = '\\' then '/' else c) :: takePath (x ++ '?' :: q))
      = (if (c = '?' || c = '#') then []
        else (if c = '\\' then '/' else c) :: takePath (x ++ '?' :: q2))
    rw [takePath_q_indep x q q2]

theorem urlPathname_embed_raw (idd q : List Char) :
    urlPathname (String.mk (("https://www.youtube.com/embed/").data ++ (idd ++ ('?' :: q))))
      = String.mk ('/' :: 'e' :: 'm' :: 'b' :: 'e' :: 'd' :: '/'
          :: takePath (idd ++ ('?' :: q))) := rfl

theorem lastSeg_embed_raw (T : List Char) :
    lastSeg (String.mk ('/' :: 'e' :: 'm' :: 'b' :: 'e' :: 'd' :: '/' :: T))
      = String.mk (lastSegAux T []) := rfl

theorem iframeSrc_data2 (id : String) (b : Bool) :
    iframeSrc { videoId := id, autoplay := b }
      = String.mk (("https://www.youtube.com/embed/").data
          ++ (id.data ++ ('?' :: (if b then ("rel=0&enablejsapi=1&autoplay=1&mute=1")
              else ("rel=0&enablejsapi=1")).data))) :=
  iframeSrc_data id.data b

theorem extract_flag_indep (id : String) (b b2 : Bool) :
    lastSeg (urlPathname (iframeSrc { videoId := id, autoplay := b }))
      = lastSeg (urlPathname (iframeSrc { videoId := id, autoplay := b2 })) := by
  rw [iframeSrc_data2 id b, iframeSrc_data2 id b2]
  rw [urlPathname_embed_raw, urlPathname_embed_raw]
  rw [lastSeg_embed_raw, lastSeg_embed_raw]
  rw [takePath_q_indep id.data _ (if b2 then ("rel=0&enablejsapi=1&autoplay=1&mute=1")
      else ("rel=0&enablejsapi=1")).data]

theorem rebuild_as_match (e : YTEmbed) (b : Bool) :
    rebuildEmbed e b
      = (matchYouTubeId (("https://youtube.com/watch?v=")
          ++ lastSeg (urlPathname (iframeSrc e)))).map
          (fun v => { videoId := v, autoplay := b }) := rfl

theorem rebuild_embed_flag (id : String) (b b2 b3 : Bool) :
    rebuildEmbed { videoId := id, autoplay := b } b3
      = rebuildEmbed { videoId := id, autoplay := b2 } b3 := by
  rw [rebuild_as_match, rebuild_as_match, extract_flag_indep id b b2]

theorem rebuild_none_flag (e : YTEmbed) (b b2 : Bool)
    (h : rebuildEmbed e b = none) : rebuildEmbed e b2 = none := by
  rw [rebuild_as_match] at h ⊢
  cases hm : matchYouTubeId (("https://youtube.com/watch?v=")
      ++ lastSeg (urlPathname (iframeSrc e))) with
  | none => rfl
  | some v =>
    rw [hm] at h
    exact Option.noConfusion h

theorem rebuild_some_elim (e : YTEmbed) (b : Bool) (e2 : YTEmbed)
    (h : rebuildEmbed e b = some e2) :
    matchYouTubeId (("https://youtube.com/watch?v=")
        ++ lastSeg (urlPathname (iframeSrc e))) = some e2.videoId ∧
      e2 = { videoId := e2.videoId, autoplay := b } := by
  rw [rebuild_as_match] at h
  cases hm : matchYouTubeId (("https://youtube.com/watch?v=")
      ++ lastSeg (urlPathname (iframeSrc e))) with
  | none =>
    rw [hm] at h
    exact Option.noConfusion h
  | some v =>
    rw [hm] at h
    have h2 := Option.some.inj h
    rw [← h2]
    exact ⟨rfl, rfl⟩

theorem tryCapture_shape (l cap : List Char) (h : tryCapture l = some cap) :
    goodCap cap := by
  unfold tryCapture at h
  by_cases hc : ((l.take 11).length = 11 && (l.take 11).all isIdChar) = true
  · rw [if_pos hc] at h
    have h2 := Option.some.inj h
    subst h2
    simp only [Bool.and_eq_true, decide_eq_true_eq, List.all_eq_true] at hc
    exact ⟨hc.1, hc.2⟩
  · rw [if_neg hc] at h
    exact Option.noConfusion h

theorem tryAmpV_shape :
    ∀ (j : Nat) (l cap : List Char), tryAmpV j l = some cap → goodCap cap
  | 0, l, cap, h => Option.noConfusion h
  | j + 1, l, cap, h => by
    unfold tryAmpV at h
    by_cases hd : (l.take (j + 1)).all dotOK = true
    · rw [if_pos hd] at h
      cases hs : stripLit [Char.ofNat 38, 'v', '='] (l.drop (j + 1)) with
      | none =>
        rw [hs] at h
        exact tryAmpV_shape j l cap h
      | some rest =>
        rw [hs] at h
        dsimp only at h
        cases hcap : tryCapture rest with
        | none =>
          rw [hcap] at h
          exact tryAmpV_shape j l cap h
        | some c2 =>
          rw [hcap] at h
          have h2 := Option.some.inj h
          rw [← h2]
          exact tryCapture_shape rest c2 hcap
    · rw [if_neg hd] at h
      exact tryAmpV_shape j l cap h

theorem tryWatchQ_shape (r cap : List Char) (h : tryWatchQ r = some cap) :
    goodCap cap := by
  unfold tryWatchQ at h
  cases hs : stripLit (("/watch?").data) r with
  | none =>
    rw [hs] at h
    exact Option.noConfusion h
  | some r2 =>
    rw [hs] at h
    dsimp only at h
    exact tryAmpV_shape r2.length r2 cap h

theorem tryWatchV_shape (r cap : List Char) (h : tryWatchV r = some cap) :
    goodCap cap := by
  unfold tryWatchV at h
  cases hs : stripLit (("/watch?v=").data) r with
  | none =>
    rw [hs] at h
    exact tryWatchQ_shape r cap h
  | some r2 =>
    rw [hs] at h
    dsimp only at h
    cases hcap : tryCapture r2 with
    | none =>
      rw [hcap] at h
      exact tryWatchQ_shape r cap h
    | some c2 =>
      rw [hcap] at h
      have h2 := Option.some.inj h
      rw [← h2]
      exact tryCapture_shape r2 c2 hcap

theorem tryVPath_shape (r cap : List Char) (h : tryVPath r = some cap) :
    goodCap cap := by
  unfold tryVPath at h
  cases hs : stripLit (("/v/").data) r with
  | none =>
    rw [hs] at h
    exact tryWatchV_shape r cap h
  | some r2 =>
    rw [hs] at h
    dsimp only at h
    cases hcap : tryCapture r2 with
    | none =>
      rw [hcap] at h
      exact tryWatchV_shape r cap h
    | some c2 =>
      rw [hcap] at h
      have h2 := Option.some.inj h
      rw [← h2]
      exact tryCapture_shape r2 c2 hcap

theorem tryEmbedPath_shape (r cap : List Char) (h : tryEmbedPath r = some cap) :
    goodCap cap := by
  unfold tryEmbedPath at h
  cases hs : stripLit (("/embed/").data) r with
  | none =>
    rw [hs] at h
    exact tryVPath_shape r cap h
  | some r2 =>
    rw [hs] at h
    dsimp only at h
    cases hcap : tryCapture r2 with
    | none =>
      rw [hcap] at h
      exact tryVPath_shape r cap h
    | some c2 =>
      rw [hcap] at h
      have h2 := Option.some.inj h
      rw [← h2]
      exact tryCapture_shape r2 c2 hcap

theorem tryYoutubeCom_shape (l cap : List Char) (h : tryYoutubeCom l = some cap) :
    goodCap cap := by
  unfold tryYoutubeCom at h
  cases hs : stripLit (("youtube.com").data) l with
  | none =>
    rw [hs] at h
    exact Option.noConfusion h
  | some r =>
    rw [hs] at h
    dsimp only at h
    exact tryEmbedPath_shape r cap h

theorem tryAt_shape (l cap : List Char) (h : tryAt l = some cap) : goodCap cap := by
  unfold tryAt at h
  cases hs : stripLit (("youtu.be/").data) l with
  | none =>
    rw [hs] at h
    exact tryYoutubeCom_shape l cap h
  | some r =>
    rw [hs] at h
    dsimp only at h
    cases hcap : tryCapture r with
    | none =>
      rw [hcap] at h
      exact tryYoutubeCom_shape l cap h
    | some c2 =>
      rw [hcap] at h
      have h2 := Option.some.inj h
      rw [← h2]
      exact tryCapture_shape r c2 hcap

theorem matchScan_shape :
    ∀ (l cap : List Char), matchScan l = some cap → goodCap cap
  | [], cap, h => Option.noConfusion h
  | c :: cs, cap, h => by
    unfold matchScan at h
    cases ht : tryAt (c :: cs) with
    | none =>
      rw [ht] at h
      exact matchScan_shape cs cap h
    | some c2 =>
      rw [ht] at h
      have h2 := Option.some.inj h
      rw [← h2]
      exact tryAt_shape (c :: cs) c2 ht

theorem matchYouTubeId_shape (u id : String) (h : matchYouTubeId u = some id) :
    id.data.length = 11 ∧ ∀ c ∈ id.data, isIdChar c = true := by
  unfold matchYouTubeId at h
  cases hm : matchScan u.data with
  | none =>
    rw [hm] at h
    exact Option.noConfusion h
  | some cap =>
    rw [hm] at h
    have h2 := Option.some.inj h
    obtain ⟨g1, g2⟩ := matchScan_shape u.data cap hm
    rw [← h2]
    exact ⟨g1, g2⟩

theorem stripLit_mem :
    ∀ (p l r : List Char), stripLit p l = some r → ∀ x ∈ p, x ∈ l
  | [], _, _, _, x, hx => absurd hx (List.not_mem_nil x)
  | _ :: _, [], _, h, _, _ => Option.noConfusion h
  | pc :: p, c :: l, r, h, x, hx => by
    unfold stripLit at h
    by_cases hpc : pc = c
    · rw [if_pos hpc] at h
      rcases List.mem_cons.mp hx with h1 | h1
      · rw [h1, hpc]
        exact List.mem_cons_self c l
      · exact List.mem_cons_of_mem c (stripLit_mem p l r h x h1)
    · rw [if_neg hpc] at h
      exact Option.noConfusion h

theorem stripLit_length :
    ∀ (p l r : List Char), stripLit p l = some r → l.length = p.length + r.length
  | [], l, r, h => by
    have h2 := Option.some.inj h
    rw [h2]
    simp
  | _ :: _, [], _, h => Option.noConfusion h
  | pc :: p, c :: l, r, h => by
    unfold stripLit at h
    by_cases hpc : pc = c
    · rw [if_pos hpc] at h
      have := stripLit_length p l r h
      simp only [List.length_cons, this]
      omega
    · rw [if_neg hpc] at h
      exact Option.noConfusion h

theorem tryCapture_short (l : List Char) (h : l.length < 11) : tryCapture l = none := by
  unfold tryCapture
  rw [if_neg]
  simp only [Bool.and_eq_true, decide_eq_true_eq, List.length_take]
  intro hc
  omega

theorem tryAmpV_no_amp (l : List Char) (h : ∀ c ∈ l, ¬ c = Char.ofNat 38) :
    ∀ j, tryAmpV j l = none
  | 0 => rfl
  | j + 1 => by
    unfold tryAmpV
    have hs : stripLit [Char.ofNat 38, 'v', '='] (l.drop (j + 1)) = none := by
      cases hd : l.drop (j + 1) with
      | nil => rfl
      | cons c rest =>
        have hc : c ∈ l := by
          have : c ∈ l.drop (j + 1) := by rw [hd]; exact List.mem_cons_self c rest
          exact List.mem_of_mem_drop this
        unfold stripLit
        rw [if_neg (fun he => h c hc he.symm)]
    by_cases hd : (l.take (j + 1)).all dotOK = true
    · rw [if_pos hd, hs]
      exact tryAmpV_no_amp l h j
    · rw [if_neg hd]
      exact tryAmpV_no_amp l h j

theorem tryAt_short (l : List Char) (hlen : l.length ≤ 10)
    (hsl : ∀ c ∈ l, ¬ c = '/') : tryAt l = none := by
  have hyc : tryYoutubeCom l = none := by
    unfold tryYoutubeCom
    cases hs : stripLit (("youtube.com").data) l with
    | none => rfl
    | some r =>
      have hll := stripLit_length _ l r hs
      have hc : (("youtube.com").data).length = 11 := rfl
      omega
  unfold tryAt
  cases hs : stripLit (("youtu.be/").data) l with
  | none => exact hyc
  | some r =>
    have : '/' ∈ l := stripLit_mem _ l r hs '/' (by decide)
    exact absurd rfl (hsl '/' this)

theorem matchScan_short :
    ∀ (l : List Char), l.length ≤ 10 → (∀ c ∈ l, ¬ c = '/') → matchScan l = none
  | [], _, _ => rfl
  | c :: cs, hlen, hsl => by
    rw [matchScan_skip c cs (tryAt_short (c :: cs) hlen hsl)]
    exact matchScan_short cs (by simp at hlen; omega)
      (fun x hx => hsl x (List.mem_cons_of_mem c hx))

theorem tryAt_pos8_expand (cs : List Char) :
    tryAt (("youtube.com/watch?v=").data ++ cs)
      = (match tryCapture cs with
         | some c => some c
         | none => tryWatchQ (("/watch?v=").data ++ cs)) := rfl

theorem tryWatchQ_expand (cs : List Char) :
    tryWatchQ (("/watch?v=").data ++ cs)
      = tryAmpV (("v=").data ++ cs).length (("v=").data ++ cs) := rfl

theorem tryAt_pos8_none (cs : List Char) (hlen : cs.length ≤ 10)
    (hamp : ∀ c ∈ cs, ¬ c = Char.ofNat 38) :
    tryAt (("youtube.com/watch?v=").data ++ cs) = none := by
  rw [tryAt_pos8_expand, tryCapture_short cs (by omega)]
  show tryWatchQ (("/watch?v=").data ++ cs) = none
  rw [tryWatchQ_expand]
  apply tryAmpV_no_amp
  intro c hc
  rcases List.mem_append.mp hc with h1 | h1
  · intro he
    subst he
    simp at h1
  · exact hamp c h1

theorem matchScan_watch_none (cs : List Char) (hlen : cs.length ≤ 10)
    (hsl : ∀ c ∈ cs, ¬ c = '/') (hamp : ∀ c ∈ cs, ¬ c = Char.ofNat 38) :
    matchScan (("https://youtube.com/watch?v=").data ++ cs) = none := by
  have k1 := matchScan_skip 'h' (("ttps://youtube.com/watch?v=").data ++ cs) (by rfl)
  have k2 := matchScan_skip 't' (("tps://youtube.com/watch?v=").data ++ cs) (by rfl)
  have k3 := matchScan_skip 't' (("ps://youtube.com/watch?v=").data ++ cs) (by rfl)
  have k4 := matchScan_skip 'p' (("s://youtube.com/watch?v=").data ++ cs) (by rfl)
  have k5 := matchScan_skip 's' (("://youtube.com/watch?v=").data ++ cs) (by rfl)
  have k6 := matchScan_skip ':' (("//youtube.com/watch?v=").data ++ cs) (by rfl)
  have k7 := matchScan_skip '/' (("/youtube.com/watch?v=").data ++ cs) (by rfl)
  have k8 := matchScan_skip '/' (("youtube.com/watch?v=").data ++ cs) (by rfl)
  have k9 := matchScan_skip 'y' (("outube.com/watch?v=").data ++ cs)
    (tryAt_pos8_none cs hlen hamp)
  have k10 := matchScan_skip 'o' (("utube.com/watch?v=").data ++ cs) (by rfl)
  have k11 := matchScan_skip 'u' (("tube.com/watch?v=").data ++ cs) (by rfl)
  have k12 := matchScan_skip 't' (("ube.com/watch?v=").data ++ cs) (by rfl)
  have k13 := matchScan_skip 'u' (("be.com/watch?v=").data ++ cs) (by rfl)
  have k14 := matchScan_skip 'b' (("e.com/watch?v=").data ++ cs) (by rfl)
  have k15 := matchScan_skip 'e' ((".com/watch?v=").data ++ cs) (by rfl)
  have k16 := matchScan_skip '.' (("com/watch?v=").data ++ cs) (by rfl)
  have k17 := matchScan_skip 'c' (("om/watch?v=").data ++ cs) (by rfl)
  have k18 := matchScan_skip 'o' (("m/watch?v=").data ++ cs) (by rfl)
  have k19 := matchScan_skip 'm' (("/watch?v=").data ++ cs) (by rfl)
  have k20 := matchScan_skip '/' (("watch?v=").data ++ cs) (by rfl)
  have k21 := matchScan_skip 'w' (("atch?v=").data ++ cs) (by rfl)
  have k22 := matchScan_skip 'a' (("tch?v=").data ++ cs) (by rfl)
  have k23 := matchScan_skip 't' (("ch?v=").data ++ cs) (by rfl)
  have k24 := matchScan_skip 'c' (("h?v=").data ++ cs) (by rfl)
  have k25 := matchScan_skip 'h' (("?v=").data ++ cs) (by rfl)
  have k26 := matchScan_skip '?' (("v=").data ++ cs) (by rfl)
  have k27 := matchScan_skip 'v' (("=").data ++ cs) (by rfl)
  have k28 := matchScan_skip '=' cs (by rfl)
  have kfin := matchScan_short cs hlen hsl
  exact k1.trans (k2.trans (k3.trans (k4.trans (k5.trans (k6.trans (k7.trans
    (k8.trans (k9.trans (k10.trans (k11.trans (k12.trans (k13.trans (k14.trans
    (k15.trans (k16.trans (k17.trans (k18.trans (k19.trans (k20.trans (k21.trans
    (k22.trans (k23.trans (k24.trans (k25.trans (k26.trans (k27.trans
    (k28.trans kfin)))))))))))))))))))))))))))

theorem takePath_eq_takeWhile :
    ∀ (x : List Char), (∀ c ∈ x, ¬ c = '?') → ∀ (q : List Char),
      takePath (x ++ '?' :: q)
        = (x.takeWhile (fun c => !(c = '#'))).map (fun c => if c = '\\' then '/' else c)
  | [], _, q => rfl
  | c :: x, h, q => by
    have hc := h c (List.mem_cons_self c x)
    have hx : ∀ a ∈ x, ¬ a = '?' := fun a ha => h a (List.mem_cons_of_mem c ha)
    show (if (c = '?' || c = '#') then []
        else (if c = '\\' then '/' else c) :: takePath (x ++ '?' :: q)) = _
    by_cases hh : c = '#'
    · rw [if_pos (by simp [hh])]
      rw [List.takeWhile_cons]
      rw [if_neg (by rw [decide_eq_true hh]; simp)]
      rfl
    · rw [if_neg (by simp [hc, hh])]
      have htw : List.takeWhile (fun a => !decide (a = '#')) (c :: x)
          = c :: List.takeWhile (fun a => !decide (a = '#')) x := by
        rw [List.takeWhile_cons, if_pos (by rw [decide_eq_false hh]; rfl)]
      rw [htw, List.map_cons]
      rw [takePath_eq_takeWhile x hx q]

theorem lastSegAux_len :
    ∀ (m acc : List Char), (lastSegAux m acc).length ≤ acc.length + m.length
  | [], acc => by simp [lastSegAux]
  | c :: m, acc => by
    unfold lastSegAux
    by_cases hc : c = '/'
    · rw [if_pos hc]
      have := lastSegAux_len m []
      simp only [List.length_nil] at this
      simp only [List.length_cons]
      omega
    · rw [if_neg hc]
      have := lastSegAux_len m (c :: acc)
      simp only [List.length_cons] at this ⊢
      omega

theorem lastSegAux_len_slash :
    ∀ (m acc : List Char), '/' ∈ m → (lastSegAux m acc).length + 1 ≤ m.length
  | [], _, h => absurd h (List.not_mem_nil _)
  | c :: m, acc, h => by
    unfold lastSegAux
    by_cases hc : c = '/'
    · rw [if_pos hc]
      have := lastSegAux_len m []
      simp only [List.length_nil, List.length_cons] at this ⊢
      omega
    · rw [if_neg hc]
      have hm : '/' ∈ m := by
        rcases List.mem_cons.mp h with h1 | h1
        · exact absurd h1.symm hc
        · exact h1
      have := lastSegAux_len_slash m (c :: acc) hm
      simp only [List.length_cons] at this ⊢
      omega

theorem lastSegAux_chars :
    ∀ (m acc : List Char), (∀ c ∈ acc, ¬ c = '/') →
      ∀ c ∈ lastSegAux m acc, (c ∈ m ∨ c ∈ acc) ∧ ¬ c = '/'
  | [], acc, hacc, c, hc => by
    unfold lastSegAux at hc
    have : c ∈ acc := (List.mem_reverse).mp hc
    exact ⟨Or.inr this, hacc c this⟩
  | a :: m, acc, hacc, c, hc => by
    unfold lastSegAux at hc
    by_cases ha : a = '/'
    · rw [if_pos ha] at hc
      obtain ⟨h1, h2⟩ := lastSegAux_chars m [] (by intro x hx; simp at hx) c hc
      refine ⟨?_, h2⟩
      rcases h1 with h1 | h1
      · exact Or.inl (List.mem_cons_of_mem a h1)
      · simp at h1
    · rw [if_neg ha] at hc
      obtain ⟨h1, h2⟩ := lastSegAux_chars m (a :: acc)
        (by
          intro x hx
          rcases List.mem_cons.mp hx with h3 | h3
          · rw [h3]; exact ha
          · exact hacc x h3) c hc
      refine ⟨?_, h2⟩
      rcases h1 with h1 | h1
      · exact Or.inl (List.mem_cons_of_mem a h1)
      · rcases List.mem_cons.mp h1 with h3 | h3
        · rw [h3]; exact Or.inl (List.mem_cons_self a m)
        · exact Or.inr h3

theorem takeWhile_len_lt (x : List Char) (h : '#' ∈ x) :
    (x.takeWhile (fun c => !(c = '#'))).length < x.length := by
  induction x with
  | nil => exact absurd h (List.not_mem_nil _)
  | cons c x ih =>
    rw [List.takeWhile_cons]
    by_cases hc : c = '#'
    · rw [if_neg (by simp [hc])]
      simp
    · rw [if_pos (by simp [hc])]
      have hm : '#' ∈ x := by
        rcases List.mem_cons.mp h with h1 | h1
        · exact absurd h1.symm hc
        · exact h1
      simp only [List.length_cons]
      have := ih hm
      omega

theorem takeWhile_all_eq (x : List Char) (h : ∀ c ∈ x, ¬ c = '#') :
    x.takeWhile (fun c => !(c = '#')) = x := by
  induction x with
  | nil => rfl
  | cons c x ih =>
    rw [List.takeWhile_cons]
    rw [if_pos (by simp [h c (List.mem_cons_self c x)])]
    rw [ih (fun a ha => h a (List.mem_cons_of_mem c ha))]

theorem mem_of_mem_takeWhile {p : Char → Bool} :
    ∀ (x : List Char) (c : Char), c ∈ x.takeWhile p → c ∈ x
  | [], _, h => absurd h (List.not_mem_nil _)
  | a :: x, c, h => by
    rw [List.takeWhile_cons] at h
    by_cases hp : p a = true
    · rw [if_pos hp] at h
      rcases List.mem_cons.mp h with h1 | h1
      · rw [h1]; exact List.mem_cons_self a x
      · exact List.mem_cons_of_mem a (mem_of_mem_takeWhile x c h1)
    · rw [if_neg hp] at h
      exact absurd h (List.not_mem_nil _)

theorem rebuild_dirty_none (id : String) (b b2 : Bool)
    (hlen : id.data.length = 11) (hall : ∀ c ∈ id.data, isIdChar c = true)
    (hd : ∃ c ∈ id.data, c = '#' ∨ c = '\\') :
    rebuildEmbed { videoId := id, autoplay := b } b2 = none := by
  have hq : ∀ c ∈ id.data, ¬ c = '?' := fun c hc =>
    (isIdChar_ne c (hall c hc)).2.2.1
  set q := (if b then ("rel=0&enablejsapi=1&autoplay=1&mute=1")
      else ("rel=0&enablejsapi=1")).data with hqdef
  set T := takePath (id.data ++ '?' :: q) with hT
  set seg := lastSegAux T [] with hseg
  have hTval : T = (id.data.takeWhile (fun c => !(c = '#'))).map
      (fun c => if c = '\\' then '/' else c) := by
    rw [hT]
    exact takePath_eq_takeWhile id.data hq q
  have hsegshort : seg.length ≤ 10 := by
    rcases Classical.em (∃ c ∈ id.data, c = '#') with hhash | hnohash
    · obtain ⟨c, hc, hceq⟩ := hhash
      have hTlen : T.length < 11 := by
        rw [hTval, List.length_map]
        have := takeWhile_len_lt id.data (hceq ▸ hc)
        omega
      have := lastSegAux_len T []
      rw [hseg]
      simp only [List.length_nil] at this
      omega
    · have hslash : '/' ∈ T := by
        obtain ⟨c, hc, hceq⟩ := hd
        rcases hceq with h1 | h1
        · exact absurd ⟨c, hc, h1⟩ hnohash
        · rw [hTval]
          have hmem : c ∈ id.data.takeWhile (fun c => !(c = '#')) := by
            rw [takeWhile_all_eq id.data (fun a ha he =>
              hnohash ⟨a, ha, he⟩)]
            exact hc
          have : (if c = '\\' then '/' else c) ∈ _ := List.mem_map_of_mem
            (fun c => if c = '\\' then '/' else c) hmem
          rw [if_pos h1] at this
          exact this
      have hTlen : T.length ≤ 11 := by
        rw [hTval, List.length_map]
        have h1 : (id.data.takeWhile (fun c => !(c = '#'))).length ≤ id.data.length :=
          (List.takeWhile_sublist _).length_le
        omega
      have := lastSegAux_len_slash T [] hslash
      rw [hseg]
      omega
  have hsegchars : ∀ c ∈ seg, ¬ c = '/' ∧ ¬ c = Char.ofNat 38 := by
    intro c hc
    obtain ⟨h1, h2⟩ := lastSegAux_chars T [] (by intro x hx; simp at hx) c hc
    refine ⟨h2, ?_⟩
    rcases h1 with h1 | h1
    · rw [hTval] at h1
      obtain ⟨c0, hc0, hc0eq⟩ := List.mem_map.mp h1
      by_cases hb : c0 = '\\'
      · rw [if_pos hb] at hc0eq
        exact absurd hc0eq.symm h2
      · rw [if_neg hb] at hc0eq
        subst hc0eq
        have := (isIdChar_ne c0 (hall c0 (mem_of_mem_takeWhile id.data c0 hc0))).2.1
        intro he
        exact this (by
          have : Char.ofNat 38 = '&' := by decide
          rw [← this]; exact he)
    · simp at h1
  have hurl : lastSeg (urlPathname (iframeSrc { videoId := id, autoplay := b }))
      = String.mk seg := by
    rw [iframeSrc_data2 id b, urlPathname_embed_raw, lastSeg_embed_raw]
  rw [rebuild_as_match, hurl]
  have hnone : matchYouTubeId (("https://youtube.com/watch?v=") ++ String.mk seg)
      = none := by
    unfold matchYouTubeId
    rw [String.data_append]
    rw [matchScan_watch_none seg hsegshort
      (fun c hc => (hsegchars c hc).1) (fun c hc => (hsegchars c hc).2)]
    rfl
  rw [hnone]
  rfl

theorem validId_of_shape (v : String) (hlen : v.data.length = 11)
    (hall : ∀ c ∈ v.data, isIdChar c = true)
    (hcl : ∀ c ∈ v.data, ¬ c = '#' ∧ ¬ c = '\\') : validId v = true := by
  unfold validId
  simp only [Bool.and_eq_true, beq_iff_eq, List.all_eq_true]
  refine ⟨hlen, ?_⟩
  intro c hc
  simp only [Bool.and_eq_true, Bool.not_eq_eq_eq_not, Bool.not_true, beq_eq_false_iff_ne]
  exact ⟨⟨hall c hc, (hcl c hc).1⟩, (hcl c hc).2⟩

theorem rebuild_stable (v : String) (b b2 : Bool)
    (hlen : v.data.length = 11) (hall : ∀ c ∈ v.data, isIdChar c = true) :
    rebuildEmbed { videoId := v, autoplay := b } b2
        = some { videoId := v, autoplay := b2 }
      ∨ rebuildEmbed { videoId := v, autoplay := b } b2 = none := by
  rcases Classical.em (∃ c ∈ v.data, c = '#' ∨ c = '\\') with hd | hd
  · exact Or.inr (rebuild_dirty_none v b b2 hlen hall hd)
  · refine Or.inl (rebuild_valid v b b2 ?_)
    apply validId_of_shape v hlen hall
    intro c hc
    exact ⟨fun he => hd ⟨c, hc, Or.inl he⟩, fun he => hd ⟨c, hc, Or.inr he⟩⟩

theorem pauseSlide_of_none (sl : CSlide) (h : sl.embed = none) :
    pauseSlide sl = sl := by
  unfold pauseSlide
  rw [h]

theorem pauseSlide_of_rebuild_none (sl : CSlide) (e : YTEmbed)
    (h : sl.embed = some e) (hr : rebuildEmbed e false = none) :
    pauseSlide sl = sl := by
  unfold pauseSlide
  rw [h]
  dsimp only
  rw [hr]

theorem pauseSlide_of_rebuild_some (sl : CSlide) (e e2 : YTEmbed)
    (h : sl.embed = some e) (hr : rebuildEmbed e false = some e2) :
    pauseSlide sl = { sl with embed := some e2 } := by
  unfold pauseSlide
  rw [h]
  dsimp only
  rw [hr]

theorem rebuild_fix (e e2 : YTEmbed) (h : rebuildEmbed e false = some e2) :
    rebuildEmbed e2 false = some e2 ∨ rebuildEmbed e2 false = none := by
  obtain ⟨hm, he2⟩ := rebuild_some_elim e false e2 h
  obtain ⟨hlen, hall⟩ := matchYouTubeId_shape _ _ hm
  have hst := rebuild_stable e2.videoId false false hlen hall
  rw [← he2] at hst
  exact hst

theorem pauseSlide_idem_gen (sl : CSlide) :
    pauseSlide (pauseSlide sl) = pauseSlide sl := by
  cases hsl : sl.embed with
  | none =>
    rw [pauseSlide_of_none sl hsl]
    exact pauseSlide_of_none sl hsl
  | some e =>
    cases hr : rebuildEmbed e false with
    | none =>
      rw [pauseSlide_of_rebuild_none sl e hsl hr]
      exact pauseSlide_of_rebuild_none sl e hsl hr
    | some e2 =>
      rw [pauseSlide_of_rebuild_some sl e e2 hsl hr]
      rcases rebuild_fix e e2 hr with h2 | h2
      · rw [pauseSlide_of_rebuild_some _ e2 e2 rfl h2]
      · exact pauseSlide_of_rebuild_none _ e2 rfl h2

theorem playActive_map_pause_gen (P : List CSlide) (n : Nat)
    (hP : ∀ sl ∈ P, pauseSlide sl = sl) :
    (playActive n P).map pauseSlide = P := by
  have hPmap := map_pause_self P hP
  unfold playActive
  cases hget : P.get? n with
  | none => exact hPmap
  | some a =>
    dsimp only
    have hmem : a ∈ P := List.get?_mem hget
    by_cases hv : a.isVideoSlide = true
    · rw [if_pos hv]
      cases hae : a.embed with
      | none => exact hPmap
      | some e =>
        dsimp only
        cases hr : rebuildEmbed e true with
        | none => exact hPmap
        | some e2 =>
          have hpa := hP a hmem
          have hef : rebuildEmbed e false = some e := by
            cases hrf : rebuildEmbed e false with
            | none =>
              have hn2 := rebuild_none_flag e false true hrf
              rw [hn2] at hr
              exact Option.noConfusion hr
            | some eX =>
              have h1 := pauseSlide_of_rebuild_some a e eX hae hrf
              rw [hpa] at h1
              have h2 : a.embed = some eX := congrArg CSlide.embed h1
              rw [hae] at h2
              exact congrArg some (Option.some.inj h2).symm
          obtain ⟨hm, heform⟩ := rebuild_some_elim e false e hef
          have he2 : e2 = { videoId := e.videoId, autoplay := true } := by
            have h3 := rebuild_as_match e true
            rw [hm] at h3
            rw [hr] at h3
            simp only [Option.map_some'] at h3
            exact Option.some.inj h3
          have hre2 : rebuildEmbed e2 false = some e := by
            rw [he2, rebuild_embed_flag e.videoId true false false, ← heform]
            exact hef
          dsimp only
          rw [mapWithIdx_if_set0 (fun sl => { sl with embed := some e2 }) P n a hget]
          rw [map_set, hPmap]
          have hpa2 : pauseSlide { a with embed := some e2 } = a := by
            rw [pauseSlide_of_rebuild_some _ e2 e rfl hre2]
            show { a with embed := some e } = a
            rw [← hae]
          rw [hpa2]
          exact set_get_self P n a hget
    · rw [if_neg hv]
      exact hPmap

theorem hvp_idem_gen (A : List CSlide) (n : Nat) :
    handleVideoPlayback (handleVideoPlayback A n) n = handleVideoPlayback A n := by
  have hP : ∀ sl ∈ A.map pauseSlide, pauseSlide sl = sl := by
    intro sl hsl
    obtain ⟨a, ha, rfl⟩ := List.mem_map.mp hsl
    exact pauseSlide_idem_gen a
  show playActive n ((playActive n (A.map pauseSlide)).map pauseSlide)
      = playActive n (A.map pauseSlide)
  rw [playActive_map_pause_gen (A.map pauseSlide) n hP]

theorem carouselState_ext {s t : CarouselState} (h1 : s.slides = t.slides)
    (h2 : s.indicators = t.indicators) (h3 : s.thumbnails = t.thumbnails)
    (h4 : s.currentSlide = t.currentSlide) : s = t := by
  cases s
  cases t
  simp only at h1 h2 h3 h4
  rw [h1, h2, h3, h4]

/-! ## Claim C6 -/

/-- C6: on every carousel state, two successive goToSlide calls whose
targets normalise to the same index leave the state observably identical
to the state after the first call: active classes, indicator and thumbnail
markers, the stored currentSlide, and every per-slide embed with its
source and autoplay status. -/
theorem claim6_goToSlide_idempotent (s : CarouselState) (t1 t2 : Int)
    (hn : jsWrap t1 s.slides.length = jsWrap t2 s.slides.length) :
    scrollToSlide (scrollToSlide s t1) t2 = scrollToSlide s t1 := by
  have hn2 : jsWrap t2 (scrollToSlide s t1).slides.length
      = jsWrap t1 s.slides.length := by
    rw [scroll_slides_length]
    exact hn.symm
  have hs1 : (scrollToSlide s t1).slides
      = handleVideoPlayback (mapWithIdx (fun i sl => if i == jsWrap t1 s.slides.length
          then { sl with active := true } else sl) 0
          (s.slides.map (fun sl => { sl with active := false })))
        (jsWrap t1 s.slides.length) := rfl
  have hflags : (scrollToSlide s t1).slides.map (fun sl => sl.active)
      = (List.range' 0 (scrollToSlide s t1).slides.length).map
          (fun i => i == jsWrap t1 s.slides.length) := by
    rw [scroll_slides_length, hs1, hvp_map_active, active_flags_scroll]
  apply carouselState_ext
  · show handleVideoPlayback
        (mapWithIdx (fun i sl => if i == jsWrap t2 (scrollToSlide s t1).slides.length
            then { sl with active := true } else sl) 0
          ((scrollToSlide s t1).slides.map (fun sl => { sl with active := false })))
        (jsWrap t2 (scrollToSlide s t1).slides.length)
      = (scrollToSlide s t1).slides
    rw [hn2]
    rw [reactivate_eq (jsWrap t1 s.slides.length) (scrollToSlide s t1).slides 0 hflags]
    rw [hs1]
    exact hvp_idem_gen _ _
  · show updateIndicators (scrollToSlide s t1).indicators
        (jsWrap t2 (scrollToSlide s t1).slides.length) = (scrollToSlide s t1).indicators
    rw [hn2]
    show updateIndicators (updateIndicators s.indicators (jsWrap t1 s.slides.length))
        (jsWrap t1 s.slides.length)
      = updateIndicators s.indicators (jsWrap t1 s.slides.length)
    exact updateIndicators_idem s.indicators _
  · show updateThumbnails (scrollToSlide s t1).thumbnails
        (jsWrap t2 (scrollToSlide s t1).slides.length) = (scrollToSlide s t1).thumbnails
    rw [hn2]
    show updateThumbnails (updateThumbnails s.thumbnails (jsWrap t1 s.slides.length))
        (jsWrap t1 s.slides.length)
      = updateThumbnails s.thumbnails (jsWrap t1 s.slides.length)
    exact updateThumbnails_idem s.thumbnails _
  · show some (jsWrap t2 (scrollToSlide s t1).slides.length)
      = (scrollToSlide s t1).currentSlide
    rw [hn2]
    rfl


/-- Witness for C6: on the three-slide demo carousel, targets -1 and 2
both normalise to 2, and the second call changes nothing. -/
theorem claim6_witness :
    (jsWrap (-1) (decorateCarousel demoVideoRows).slides.length
        = jsWrap 2 (decorateCarousel demoVideoRows).slides.length) ∧
      scrollToSlide (scrollToSlide (decorateCarousel demoVideoRows) (-1)) 2
        = scrollToSlide (decorateCarousel demoVideoRows) (-1) :=
  ⟨by decide,
    claim6_goToSlide_idempotent (decorateCarousel demoVideoRows) (-1) 2
      (by decide)⟩

/-! ## Video-hero lemmas -/

theorem loadVideo_shape (s : HeroState) (l : String) :
    ((loadVideoEmbed s l).embeds = s.embeds ∨
      ∃ x, (loadVideoEmbed s l).embeds = x :: s.embeds) ∧
      (loadVideoEmbed s l).observerActive = s.observerActive := by
  simp only [loadVideoEmbed]
  split
  · exact ⟨Or.inl rfl, rfl⟩
  · split
    · exact ⟨Or.inl rfl, rfl⟩
    · split
      · exact ⟨Or.inr ⟨_, rfl⟩, rfl⟩
      · split
        · exact ⟨Or.inr ⟨_, rfl⟩, rfl⟩
        · exact ⟨Or.inr ⟨_, rfl⟩, rfl⟩

theorem heroStep_inv (s : HeroState) (e : HeroEvent)
    (h1 : s.embeds.length ≤ 1) (h2 : s.observerActive = true → s.embeds = []) :
    (heroStep s e).embeds.length ≤ 1 ∧
      ((heroStep s e).observerActive = true → (heroStep s e).embeds = []) := by
  cases e with
  | mediaLoaded =>
    simp only [heroStep]
    split
    · exact ⟨h1, h2⟩
    · exact ⟨h1, h2⟩
  | intersect inter rm =>
    simp only [heroStep]
    split
    · next hg =>
      have hoa : s.observerActive = true := ((Bool.and_eq_true _ _).mp hg).1
      have hemb : s.embeds = [] := h2 hoa
      split
      · refine ⟨h1, ?_⟩
        intro hx
        simp at hx
      · split
        · next l hl =>
          obtain ⟨hsh, hob⟩ := loadVideo_shape { s with observerActive := false } l
          constructor
          · cases hsh with
            | inl hx =>
              rw [hx]
              exact h1
            | inr hx =>
              obtain ⟨x, hx⟩ := hx
              rw [hx]
              show (x :: s.embeds).length ≤ 1
              rw [hemb]
              simp
          · intro hx
            rw [hob] at hx
            simp at hx
        · refine ⟨h1, ?_⟩
          intro hx
          simp at hx
    · exact ⟨h1, h2⟩

theorem runHero_inv :
    ∀ (es : List HeroEvent) (s : HeroState),
      s.embeds.length ≤ 1 → (s.observerActive = true → s.embeds = []) →
      (runHero s es).embeds.length ≤ 1 ∧
        ((runHero s es).observerActive = true → (runHero s es).embeds = [])
  | [], _, h1, h2 => ⟨h1, h2⟩
  | e :: es, s, h1, h2 => by
    show (runHero (heroStep s e) es).embeds.length ≤ 1 ∧ _
    obtain ⟨g1, g2⟩ := heroStep_inv s e h1 h2
    exact runHero_inv es (heroStep s e) g1 g2

/-! ## Claim C2 -/

/-- C2: for every configured link and every sequence of delivered events,
including several intersection triggers in rapid succession before any
load or canplay event has fired, at most one embed wrapper is ever
constructed and inserted: the observer's self-disconnect guards the
construction even though the embedLoaded flag is still the string false. -/
theorem claim2_embed_at_most_once (link : Option String) (es : List HeroEvent) :
    (runHero (decorateHero link) es).embeds.length ≤ 1 := by
  have h1 : (decorateHero link).embeds.length ≤ 1 := by
    cases link <;> simp [decorateHero]
  have h2 : (decorateHero link).observerActive = true → (decorateHero link).embeds = [] := by
    cases link <;> intro h <;> rfl
  exact (runHero_inv es (decorateHero link) h1 h2).1

/-! ## Claim C7 -/

theorem heroStep_obs_mono (s : HeroState) (e : HeroEvent)
    (h : s.observerActive = false) : (heroStep s e).observerActive = false := by
  cases e with
  | intersect inter rm =>
    simp only [heroStep]
    rw [if_neg (by simp [h])]
    exact h
  | mediaLoaded =>
    simp only [heroStep]
    split
    · exact h
    · exact h

theorem runHero_obs_mono :
    ∀ (es : List HeroEvent) (s : HeroState), s.observerActive = false →
      (runHero s es).observerActive = false
  | [], _, h => h
  | e :: es, s, h => by
    show (runHero (heroStep s e) es).observerActive = false
    exact runHero_obs_mono es (heroStep s e) (heroStep_obs_mono s e h)

theorem heroStep_rm (s : HeroState) (e : HeroEvent) (hrm : eventRM e = true)
    (h1 : s.embeds = []) (h2 : s.observerActive = false → s.noVideoClass = true) :
    (heroStep s e).embeds = [] ∧
      ((heroStep s e).observerActive = false → (heroStep s e).noVideoClass = true) ∧
      (e = HeroEvent.intersect true true → (heroStep s e).observerActive = false) := by
  cases e with
  | mediaLoaded =>
    simp only [heroStep]
    rw [if_neg (by rw [h1]; simp)]
    exact ⟨h1, h2, fun h => HeroEvent.noConfusion h⟩
  | intersect inter rm =>
    have hb : rm = true := hrm
    subst hb
    simp only [heroStep]
    split
    · next hg =>
      simp only [if_true]
      exact ⟨h1, fun _ => trivial, fun _ => trivial⟩
    · next hg =>
      refine ⟨h1, h2, ?_⟩
      intro hx
      injection hx with hx1 hx2
      subst hx1
      simp at hg
      exact hg

theorem runHero_rm :
    ∀ (es : List HeroEvent) (s : HeroState),
      (∀ e ∈ es, eventRM e = true) → s.embeds = [] →
      (s.observerActive = false → s.noVideoClass = true) →
      (runHero s es).embeds = [] ∧
        ((runHero s es).observerActive = false → (runHero s es).noVideoClass = true) ∧
        (HeroEvent.intersect true true ∈ es → (runHero s es).observerActive = false)
  | [], _, _, h1, h2 => ⟨h1, h2, fun h => absurd h (List.not_mem_nil _)⟩
  | e :: es, s, hall, h1, h2 => by
    have he := hall e (List.mem_cons_self e es)
    have htail : ∀ x ∈ es, eventRM x = true :=
      fun x hx => hall x (List.mem_cons_of_mem e hx)
    obtain ⟨g1, g2, g3⟩ := heroStep_rm s e he h1 h2
    obtain ⟨r1, r2, r3⟩ := runHero_rm es (heroStep s e) htail g1 g2
    refine ⟨r1, r2, ?_⟩
    intro hmem
    rcases List.mem_cons.mp hmem with h | h
    · exact runHero_obs_mono es (heroStep s e) (g3 h.symm)
    · exact r3 h

/-- C7: whenever every delivered event samples a reduced-motion preference
(the viewing environment signals reduced motion at trigger time) and an
intersecting trigger occurs on a decorated hero, no provider iframe or
video element is ever constructed and the static no-video class is applied
to the block. -/
theorem claim7_reduced_motion (l : String) (es : List HeroEvent)
    (hall : ∀ e ∈ es, eventRM e = true)
    (htrig : HeroEvent.intersect true true ∈ es) :
    (runHero (decorateHero (some l)) es).embeds = [] ∧
      (runHero (decorateHero (some l)) es).noVideoClass = true := by
  obtain ⟨r1, r2, r3⟩ := runHero_rm es (decorateHero (some l)) hall rfl
    (by intro h; simp [decorateHero] at h)
  exact ⟨r1, r2 (r3 htrig)⟩

/-- Witness for C7: a single reduced-motion intersection trigger yields the
no-video class and no embed. -/
theorem claim7_witness :
    ((∀ e ∈ ([HeroEvent.intersect true true] : List HeroEvent), eventRM e = true) ∧
      HeroEvent.intersect true true ∈ ([HeroEvent.intersect true true] : List HeroEvent)) ∧
      ((runHero (decorateHero (some ("https://youtu.be/dQw4w9WgXcQ")))
          [HeroEvent.intersect true true]).embeds = [] ∧
        (runHero (decorateHero (some ("https://youtu.be/dQw4w9WgXcQ")))
          [HeroEvent.intersect true true]).noVideoClass = true) :=
  ⟨⟨by decide, by decide⟩,
    claim7_reduced_motion ("https://youtu.be/dQw4w9WgXcQ")
      [HeroEvent.intersect true true] (by decide) (by decide)⟩

/-! ## Claim C8 -/

set_option maxRecDepth 8192 in
/-- C8: configured with the URL youtu.be/dQw4w9WgXcQ, the first
intersection trigger without a reduced-motion signal constructs exactly
one YouTube iframe whose source contains the video id dQw4w9WgXcQ and
whose playlist (loop) parameter equals that same id. -/
theorem claim8_loop_playlist :
    (runHero (decorateHero (some ("https://youtu.be/dQw4w9WgXcQ")))
        [HeroEvent.intersect true false]).embeds
      = [HeroEmbed.youtubeIframe
          ("https://www.youtube.com/embed/dQw4w9WgXcQ?rel=0&v=dQw4w9WgXcQ&autoplay=1&mute=1&controls=0&disablekb=1&loop=1&playsinline=1&playlist=dQw4w9WgXcQ")] ∧
      containsSub
        ("https://www.youtube.com/embed/dQw4w9WgXcQ?rel=0&v=dQw4w9WgXcQ&autoplay=1&mute=1&controls=0&disablekb=1&loop=1&playsinline=1&playlist=dQw4w9WgXcQ")
        ("dQw4w9WgXcQ") = true ∧
      (parseURL
          ("https://www.youtube.com/embed/dQw4w9WgXcQ?rel=0&v=dQw4w9WgXcQ&autoplay=1&mute=1&controls=0&disablekb=1&loop=1&playsinline=1&playlist=dQw4w9WgXcQ")).map
          (fun u => searchParamGet u.search ("playlist"))
        = some (some ("dQw4w9WgXcQ")) := by decide

/-! ## Claim C9 -/

/-- C9: a hero block without an anchor is decorated into the fixed message
Video URL is required, constructs no observer and no embed, and every
subsequently delivered event leaves that state untouched: the failure is
terminal and never retried. -/
theorem claim9_missing_url (es : List HeroEvent) :
    (decorateHero none).message = some ("Video URL is required") ∧
      (decorateHero none).observerConstructed = false ∧
      (decorateHero none).embeds = [] ∧
      runHero (decorateHero none) es = decorateHero none := by
  refine ⟨rfl, rfl, rfl, ?_⟩
  induction es with
  | nil => rfl
  | cons e es ih =>
    show runHero (heroStep (decorateHero none) e) es = decorateHero none
    rw [show heroStep (decorateHero none) e = decorateHero none from by
      cases e with
      | intersect inter rm => rfl
      | mediaLoaded => rfl]
    exact ih

end DarkAlley
open DarkAlley

